import Mathlib

/-!
# Verification of the isobenefit urban-growth engine

Shallow embedding of `src/isobenefit/land_map.py`: the grid state, the
incrementally maintained accessibility surfaces, the green-interface tracker,
the span validator, the per-step stochastic update rule, and the construction
routine, together with theorems settling the specification claims.

Modelling conventions:
* numpy arrays become total functions `ℤ → ℤ → α` together with explicit
  height/width bounds `H W : ℕ`; only indices in `[0,H) × [0,W)` are observed;
* exact arithmetic (`ℤ`, `ℚ`) replaces the int16/float32 of the source;
* `np.hypot` (floating-point Euclidean distance, irrational in general) is a
  parameter `hypotQ : ℕ → ℕ → ℚ` of every definition that uses it, applied to
  the two non-negative integer metre offsets exactly as the source applies
  `np.hypot(x_dist, y_dist)`; closed theorems instantiate it with `hypotRow`,
  which agrees with the true distance on every axis-aligned offset, the only
  offsets the one-row concrete configurations exercise;
* the interpreted `np.random` stream, seeded once at construction, becomes
  an explicit stream `rand : ℕ → ℚ` of draws together with a cursor carried
  in the engine state, advanced once per interpreted `np.random.rand()` call
  in source order; `_random_density` is `@njit`, so its `np.random.rand()`
  draws from numba's internal generator, a separate stream that the
  interpreted `np.random.seed(random_seed)` call in `__init__` does not
  seed — it is modelled as a second stream `nb_rand : ℕ → ℚ`, not derived
  from the seed, with its own cursor `rng_nb`;
* the green connected-component areas array is produced by external libraries
  (`rasterio.features.shapes/rasterize`, `shapely`), outside this repository's
  sources; it is a parameter `areasFn` of the growth step, since every claim
  about the step holds for an arbitrary areas array;
* `rasterio.transform.rowcol` (external) is likewise a parameter `rowcol` of
  construction.
-/

namespace Isobenefit

/-- A 2-D array of cell classes (`-1` out of bounds, `0` nature, `1` built,
`2` centre) or other integer data, as a total function on `ℤ × ℤ` indices. -/
abbrev GridZ : Type := ℤ → ℤ → ℤ

/-- A 2-D array of rationals (exact model of the float32 surfaces). -/
abbrev GridQ : Type := ℤ → ℤ → ℚ

/-- Point update of a grid at index `(y, x)`. -/
def upd {α : Type} (g : ℤ → ℤ → α) (y x : ℤ) (v : α) : ℤ → ℤ → α :=
  fun y' x' => if y' = y ∧ x' = x then v else g y' x'

/-- The row-major list of in-range indices, mirroring `np.ndindex(shape)`. -/
def rangeList (H W : ℕ) : List (ℤ × ℤ) :=
  (List.range H ×ˢ List.range W).map (fun p => ((p.1 : ℤ), (p.2 : ℤ)))

/-- `_agg_access` (source lines 36-50): for every cell of the array, compute
the Euclidean metre distance to `(y, x)`; skip the cell if the distance
exceeds `walk_dist_m`, otherwise add (`positive`) or subtract the triangular
value `1 - dist / walk_dist_m`.  The per-cell writes of the source loop are
independent, so the loop is expressed pointwise. -/
def agg_access (hypotQ : ℕ → ℕ → ℚ) (granularity_m walk_dist_m : ℕ)
    (y x : ℤ) (arr : GridQ) (positive : Bool) : GridQ :=
  fun cy cx =>
    let d : ℚ := hypotQ ((x - cx).natAbs * granularity_m) ((y - cy).natAbs * granularity_m)
    if d > (walk_dist_m : ℚ) then arr cy cx
    else if positive then arr cy cx + (1 - d / (walk_dist_m : ℚ))
    else arr cy cx - (1 - d / (walk_dist_m : ℚ))

/-- `_inc_access` (source lines 24-27). -/
def inc_access (hypotQ : ℕ → ℕ → ℚ) (g w : ℕ) (y x : ℤ) (arr : GridQ) : GridQ :=
  agg_access hypotQ g w y x arr true

/-- `_decr_access` (source lines 30-33). -/
def decr_access (hypotQ : ℕ → ℕ → ℚ) (g w : ℕ) (y x : ℤ) (arr : GridQ) : GridQ :=
  agg_access hypotQ g w y x arr false

/-- `_iter_nbs` (source lines 66-84): rook or queen neighbours of `(y, x)`,
in the source's offset order, dropping out-of-bounds indices. -/
def iter_nbs (H W : ℕ) (y x : ℤ) (rook : Bool) : List (ℤ × ℤ) :=
  let offs : List (ℤ × ℤ) :=
    if rook then [(1, 0), (0, 1), (-1, 0), (0, -1)]
    else [(1, -1), (1, 0), (1, 1), (0, 1), (-1, 1), (-1, 0), (-1, -1), (0, -1)]
  offs.filterMap (fun o =>
    let yn := y + o.1
    let xn := x + o.2
    if 0 ≤ yn ∧ yn < (H : ℤ) ∧ 0 ≤ xn ∧ xn < (W : ℤ) then some (yn, xn) else none)

/-- The deactivate/activate phase of `_green_state` (source lines 100-109):
if the cell is an active frontier cell, switch it off and decrement green
access on a working copy; then activate every rook neighbour that is Nature
and not already frontier, incrementing the working copy. -/
def green_state_work (hypotQ : ℕ → ℕ → ℚ) (g w H W : ℕ) (y x : ℤ)
    (state_arr green_itx_arr : GridZ) (old_green_acc_arr : GridQ) : GridZ × GridQ :=
  let p0 : GridZ × GridQ :=
    if green_itx_arr y x = 1 then
      (upd green_itx_arr y x 0, decr_access hypotQ g w y x old_green_acc_arr)
    else (green_itx_arr, old_green_acc_arr)
  (iter_nbs H W y x true).foldl
    (fun p nb =>
      if state_arr nb.1 nb.2 = 0 ∧ p.1 nb.1 nb.2 = 0 then
        (upd p.1 nb.1 nb.2 1, inc_access hypotQ g w nb.1 nb.2 p.2)
      else p)
    p0

/-- The rejection scan of `_green_state` (source lines 112-114): does some
cell's access drop from a positive value to exactly zero?  (`np.where`
ranges over the in-bounds indices.) -/
def strands (H W : ℕ) (old_acc new_acc : GridQ) : Bool :=
  (rangeList H W).any (fun c =>
    decide (old_acc c.1 c.2 - new_acc c.1 c.2 > 0 ∧
      new_acc c.1 c.2 = 0 ∧ old_acc c.1 c.2 > 0))

/-- `_green_state` (source lines 87-120): run the working phase; if the
rejection scan fires, tombstone the cell (value 2) in the (already mutated)
interface array and return the old access surface; otherwise commit. -/
def green_state (hypotQ : ℕ → ℕ → ℚ) (g w H W : ℕ) (y x : ℤ)
    (state_arr green_itx_arr : GridZ) (old_green_acc_arr : GridQ) :
    Bool × GridZ × GridQ :=
  let wk := green_state_work hypotQ g w H W y x state_arr green_itx_arr old_green_acc_arr
  if strands H W old_green_acc_arr wk.2 then
    (false, upd wk.1 y x 2, old_green_acc_arr)
  else
    (true, wk.1, wk.2)

/-- `_compute_green_itx` (source lines 154-167): bootstrap the frontier array
and green access surface by running `_green_state` over every built/centre
cell in row-major order, starting from all-zero arrays. -/
def compute_green_itx (hypotQ : ℕ → ℕ → ℚ) (g w H W : ℕ) (state_arr : GridZ) :
    GridZ × GridQ :=
  (rangeList H W).foldl
    (fun p c =>
      if state_arr c.1 c.2 < 1 then p
      else
        let r := green_state hypotQ g w H W c.1 c.2 state_arr p.1 p.2
        (r.2.1, r.2.2))
    (fun _ _ => 0, fun _ _ => 0)

/-- `_compute_centres_access` (source lines 53-63): aggregate access from
every Centre cell, starting from zero. -/
def compute_centres_access (hypotQ : ℕ → ℕ → ℚ) (g w H W : ℕ) (state_arr : GridZ) :
    GridQ :=
  (rangeList H W).foldl
    (fun acc c =>
      if state_arr c.1 c.2 ≠ 2 then acc
      else inc_access hypotQ g w c.1 c.2 acc)
    (fun _ _ => 0)

/-- The index sequence walked by `green_ray` (source lines 173-176):
ascending from `start+1` to the end, or descending from `start-1` to `0`. -/
def rayIdxs (len : ℕ) (start : ℤ) (positive : Bool) : List ℤ :=
  if positive then
    ((List.range len).map (fun i => (i : ℤ))).filter (fun i => start + 1 ≤ i)
  else
    (((List.range len).map (fun i => (i : ℤ))).filter (fun i => i ≤ start - 1)).reverse

/-- `green_ray` (source lines 170-184): the number of consecutive zero
(Nature) cells along the 1-D slice, stopping at the first nonzero cell or
the array edge. -/
def green_ray (arr_1d : ℤ → ℤ) (len : ℕ) (start : ℤ) (positive : Bool) : ℕ :=
  ((rayIdxs len start positive).takeWhile (fun i => decide (arr_1d i = 0))).length

/-- `green_rays` (source lines 187-223): cast the four rays through the
cell's row and column, sort each axis pair and the pair of axis maxima, and
apply the span checks in source order.  Divisions are the exact rational
value of Python's true division. -/
def green_rays (state_arr : GridZ) (H W : ℕ) (y x : ℤ)
    (granularity_m min_long_green_span_m min_short_green_span_m : ℕ) : Bool :=
  let x_ray_l := green_ray (fun i => state_arr y i) W x false
  let x_ray_r := green_ray (fun i => state_arr y i) W x true
  let x_lo := min x_ray_l x_ray_r
  let x_hi := max x_ray_l x_ray_r
  let y_ray_l := green_ray (fun i => state_arr i x) H y false
  let y_ray_r := green_ray (fun i => state_arr i x) H y true
  let y_lo := min y_ray_l y_ray_r
  let y_hi := max y_ray_l y_ray_r
  let m_lo := min x_hi y_hi
  let m_hi := max x_hi y_hi
  if x_lo + x_hi ≠ 0 ∧ x_lo ≠ 0 ∧
      (x_lo : ℚ) < (min_short_green_span_m : ℚ) / (granularity_m : ℚ) then false
  else if y_lo + y_hi ≠ 0 ∧ y_lo ≠ 0 ∧
      (y_lo : ℚ) < (min_short_green_span_m : ℚ) / (granularity_m : ℚ) then false
  else if (m_hi : ℚ) < (min_long_green_span_m : ℚ) / (granularity_m : ℚ) then false
  else if (m_lo : ℚ) < (min_short_green_span_m : ℚ) / (granularity_m : ℚ) then false
  else true

/-- The binary ring of `_count_cont_nbs` (source lines 126-131): `1` for each
in-bounds queen neighbour whose class is in `target_vals`, in ring order. -/
def nb_ring (state_arr : GridZ) (H W : ℕ) (y x : ℤ) (target_vals : List ℤ) : List ℕ :=
  (iter_nbs H W y x false).map
    (fun nb => if state_arr nb.1 nb.2 ∈ target_vals then 1 else 0)

/-- The run-length pass of `_count_cont_nbs` (source lines 133-142): lengths
of the maximal blocks of consecutive `1`s, in order. -/
def runsOf (circle : List ℕ) : List ℕ :=
  let p := circle.foldl
    (fun (p : List ℕ × ℕ) c =>
      if c = 1 then (p.1, p.2 + 1)
      else if p.2 > 0 then (p.1 ++ [p.2], 0)
      else p)
    ([], 0)
  if p.2 > 0 then p.1 ++ [p.2] else p.1

/-- `_count_cont_nbs` (source lines 123-151): run lengths over the queen ring,
with the wraparound merge applied only when the ring is the full 8-cell
circle, returning `(max run, number of runs)` and `(0, 0)` when empty. -/
def count_cont_nbs (state_arr : GridZ) (H W : ℕ) (y x : ℤ) (target_vals : List ℤ) :
    ℕ × ℕ :=
  let circle := nb_ring state_arr H W y x target_vals
  let adds := runsOf circle
  let adds2 :=
    if adds.length > 1 ∧ circle.length = 8 ∧
        circle.head? = some 1 ∧ circle.getLast? = some 1 then
      (adds.set 0 (adds.headD 0 + adds.getLastD 0)).dropLast
    else adds
  if adds2.isEmpty then (0, 0) else (adds2.foldl max 0, adds2.length)

/-- `_random_density` (source lines 462-473) applied to an already-drawn
uniform value `p`: positional threshold lookup, exactly the source's
`if p >= 0 and p < pd[0] / elif pd[1] <= p < pd[2] / else` chain. -/
def random_density (p : ℚ) (prob_distribution density_factors : ℚ × ℚ × ℚ) : ℚ :=
  if 0 ≤ p ∧ p < prob_distribution.1 then density_factors.1
  else if prob_distribution.2.1 ≤ p ∧ p < prob_distribution.2.2 then density_factors.2.1
  else density_factors.2.2

/-- The constructor parameters of `Land.__init__` (source lines 258-274) that
the engine keeps; probabilities and factors are exact rationals. -/
structure Params where
  granularity_m : ℕ
  walk_dist_m : ℕ
  build_prob : ℚ
  cent_prob_nb : ℚ
  cent_prob_isol : ℚ
  max_local_pop : ℕ
  prob_distribution : ℚ × ℚ × ℚ
  density_factors : ℚ × ℚ × ℚ
  min_green_km2 : ℕ
  min_long_green_span_m : ℕ
  min_short_green_span_m : ℕ

/-- The mutable state of a `Land` instance: the class grid, the frontier
array, the two accessibility surfaces, the density grid, the positions in
the seeded numpy stream (`rng`) and in numba's independent stream
(`rng_nb`, consumed only by the jitted `_random_density`), and the
iteration counter. -/
structure Land where
  state_arr : GridZ
  green_itx_arr : GridZ
  green_acc_arr : GridQ
  cent_acc_arr : GridQ
  density_arr : GridQ
  rng : ℕ
  rng_nb : ℕ
  iters : ℕ

/-- `Land.__init__` (source lines 258-319): copy the extents into the class
grid, fail when the extents area (km²) is below twice `min_green_km2`
(the source raises `ValueError` there, before any derived state exists),
seed the centres through `rowcol`, then bootstrap the frontier/access
surfaces and the centre access surface.  Construction draws no random
numbers, so both stream cursors start at 0 (for the numba stream this means
`nb_rand` denotes whatever suffix of numba's generator output is pending at
construction — construction neither reads nor seeds that generator). -/
def land_init (hypotQ : ℕ → ℕ → ℚ) (rowcol : ℚ × ℚ → ℤ × ℤ) (P : Params)
    (H W : ℕ) (extents_arr : GridZ) (centre_seeds : List (ℚ × ℚ)) : Option Land :=
  let state0 : GridZ := extents_arr
  let area : ℕ := H * P.granularity_m * W * P.granularity_m
  if (area : ℚ) / (1000 * 1000) < 2 * (P.min_green_km2 : ℚ) then none
  else
    let state1 := centre_seeds.foldl
      (fun s c =>
        let i := rowcol c
        upd s i.1 i.2 2)
      state0
    let gi := compute_green_itx hypotQ P.granularity_m P.walk_dist_m H W state1
    some
      { state_arr := state1
        green_itx_arr := gi.1
        green_acc_arr := gi.2
        cent_acc_arr := compute_centres_access hypotQ P.granularity_m P.walk_dist_m H W state1
        density_arr := fun _ _ => 0
        rng := 0
        rng_nb := 0
        iters := 0 }

/-- One cell visit of the scan in `Land.iter_land_isobenefit` (source lines
347-447).  The accumulator is `(state, added_blocks, added_centrality)`.
The source also computes `_count_cont_nbs` twice here and discards both
results (their only consumer is commented out); the calls are pure and are
therefore not repeated in the model.  The branch draws are interpreted
`np.random.rand()` calls (stream `rand`); each committed write draws its
density inside the jitted `_random_density`, i.e. from numba's separate
stream `nb_rand`. -/
def iter_cell (hypotQ : ℕ → ℕ → ℚ) (rand nb_rand : ℕ → ℚ) (P : Params) (H W : ℕ)
    (areas_arr : GridZ) (cell_area : ℤ) (p : Land × ℕ × ℕ) (c : ℤ × ℤ) :
    Land × ℕ × ℕ :=
  let L := p.1
  if L.green_itx_arr c.1 c.2 = 1 then
    let area := areas_arr c.1 c.2
    if area > cell_area ∧ area < (P.min_green_km2 : ℤ) then p
    else if ¬ green_rays L.state_arr H W c.1 c.2 P.granularity_m
        P.min_long_green_span_m P.min_short_green_span_m then p
    else if L.cent_acc_arr c.1 c.2 > 0 then
      let draw := rand L.rng
      let L1 := { L with rng := L.rng + 1 }
      if draw < P.build_prob then
        let r := green_state hypotQ P.granularity_m P.walk_dist_m H W c.1 c.2
          L1.state_arr L1.green_itx_arr L1.green_acc_arr
        let L2 := { L1 with green_itx_arr := r.2.1, green_acc_arr := r.2.2 }
        if r.1 then
          let dens := random_density (nb_rand L2.rng_nb) P.prob_distribution P.density_factors
          ({ L2 with
              state_arr := upd L2.state_arr c.1 c.2 1
              density_arr := upd L2.density_arr c.1 c.2 dens
              rng_nb := L2.rng_nb + 1 }, p.2.1 + 1, p.2.2)
        else (L2, p.2.1, p.2.2)
      else (L1, p.2.1, p.2.2)
    else
      let draw := rand L.rng
      let L1 := { L with rng := L.rng + 1 }
      if draw < P.cent_prob_nb then
        let r := green_state hypotQ P.granularity_m P.walk_dist_m H W c.1 c.2
          L1.state_arr L1.green_itx_arr L1.green_acc_arr
        let L2 := { L1 with green_itx_arr := r.2.1, green_acc_arr := r.2.2 }
        if r.1 then
          let dens := random_density (nb_rand L2.rng_nb) P.prob_distribution P.density_factors
          ({ L2 with
              state_arr := upd L2.state_arr c.1 c.2 2
              cent_acc_arr := inc_access hypotQ P.granularity_m P.walk_dist_m c.1 c.2 L2.cent_acc_arr
              density_arr := upd L2.density_arr c.1 c.2 dens
              rng_nb := L2.rng_nb + 1 }, p.2.1, p.2.2 + 1)
        else (L2, p.2.1, p.2.2)
      else (L1, p.2.1, p.2.2)
  else if L.state_arr c.1 c.2 = 0 then
    let draw := rand L.rng
    let L1 := { L with rng := L.rng + 1 }
    if draw < P.cent_prob_isol then
      let r := green_state hypotQ P.granularity_m P.walk_dist_m H W c.1 c.2
        L1.state_arr L1.green_itx_arr L1.green_acc_arr
      let L2 := { L1 with green_itx_arr := r.2.1, green_acc_arr := r.2.2 }
      if r.1 then
        let dens := random_density (nb_rand L2.rng_nb) P.prob_distribution P.density_factors
        ({ L2 with
            state_arr := upd L2.state_arr c.1 c.2 2
            cent_acc_arr := inc_access hypotQ P.granularity_m P.walk_dist_m c.1 c.2 L2.cent_acc_arr
            density_arr := upd L2.density_arr c.1 c.2 dens
            rng_nb := L2.rng_nb + 1 }, p.2.1, p.2.2 + 1)
      else (L2, p.2.1, p.2.2)
    else (L1, p.2.1, p.2.2)
  else p

/-- The body of `Land.iter_land_isobenefit` (source lines 321-449) up to and
including the final values of the local counters `added_blocks` and
`added_centrality`: bump the iteration counter, obtain the per-step areas
array from the external rasterio/shapely pipeline (`areasFn`), compute the
truncated cell footprint `int((granularity_m/1000)**2)`, and fold the cell
visit over the row-major scan. -/
def iter_land_counts (hypotQ : ℕ → ℕ → ℚ) (rand nb_rand : ℕ → ℚ) (areasFn : GridZ → GridZ)
    (P : Params) (H W : ℕ) (L : Land) : Land × ℕ × ℕ :=
  let L0 := { L with iters := L.iters + 1 }
  let areas_arr := areasFn L0.state_arr
  let cell_area : ℤ := Int.floor (((P.granularity_m : ℚ) / 1000) ^ 2)
  (rangeList H W).foldl (iter_cell hypotQ rand nb_rand P H W areas_arr cell_area) (L0, 0, 0)

/-- `Land.iter_land_isobenefit` as called: the method logs both counters but
has no `return` statement, so its Python return value is `None`; the second
component models that returned value. -/
def iter_land_isobenefit (hypotQ : ℕ → ℕ → ℚ) (rand nb_rand : ℕ → ℚ)
    (areasFn : GridZ → GridZ) (P : Params) (H W : ℕ) (L : Land) :
    Land × Option (ℕ × ℕ) :=
  let r := iter_land_counts hypotQ rand nb_rand areasFn P H W L
  (r.1, none)

/-- Construct an engine and drive it through `n` growth steps.  Branch
draws come from the numpy stream determined by `random_seed` (the source
executes `np.random.seed(random_seed)` in `__init__`, so `randFam seed` is
that seeded stream); density draws come from `nb_rand`, numba's internal
generator stream, which that interpreted seeding call does not touch and
which is therefore an independent input, not a function of the seed. -/
def simulate (hypotQ : ℕ → ℕ → ℚ) (rowcol : ℚ × ℚ → ℤ × ℤ) (areasFn : GridZ → GridZ)
    (randFam : ℕ → ℕ → ℚ) (nb_rand : ℕ → ℚ) (P : Params) (H W : ℕ) (extents_arr : GridZ)
    (centre_seeds : List (ℚ × ℚ)) (random_seed : ℕ) (n : ℕ) : Option Land :=
  (land_init hypotQ rowcol P H W extents_arr centre_seeds).map
    (fun L =>
      (fun L' =>
        (iter_land_isobenefit hypotQ (randFam random_seed) nb_rand areasFn P H W L').1)^[n] L)

/-- Concrete instantiation of the distance parameter used by the closed
theorems below.  On every axis-aligned metre offset (`a = 0` or `b = 0`) it
is the exact value of `np.hypot`, namely the nonzero coordinate.  All closed
theorems below evaluate it only on one-row grids, where the vertical offset
is always `0`, so the (necessarily inexact, since the true distance is
irrational) off-axis fallback is never consulted by any computation or sum
appearing in those theorems. -/
def hypotRow (a b : ℕ) : ℚ := if b = 0 then (a : ℚ) else if a = 0 then (b : ℚ) else 0

lemma hypotRow_nonneg (a b : ℕ) : 0 ≤ hypotRow a b := by
  unfold hypotRow
  split_ifs <;> positivity

/-- The triangular contribution of a source cell `(sy, sx)` to the surface at
`(cy, cx)`: zero beyond the walking radius, else `1 - dist / walk_dist_m`,
exactly the per-cell effect of one `_agg_access` pass. -/
def kernel (hypotQ : ℕ → ℕ → ℚ) (g w : ℕ) (sy sx cy cx : ℤ) : ℚ :=
  let d : ℚ := hypotQ ((sx - cx).natAbs * g) ((sy - cy).natAbs * g)
  if d > (w : ℚ) then 0 else 1 - d / (w : ℚ)

/-- The in-range index set as a finite set. -/
def rangeFinset (H W : ℕ) : Finset (ℤ × ℤ) := (rangeList H W).toFinset

/-- The green-access consistency invariant of the spec: at every in-range
cell the surface equals the sum of the triangular contributions of all
currently-active (`= 1`) frontier cells. -/
def consistent (hypotQ : ℕ → ℕ → ℚ) (g w H W : ℕ) (itx : GridZ) (acc : GridQ) : Prop :=
  ∀ c ∈ rangeFinset H W,
    acc c.1 c.2 =
      ∑ s ∈ rangeFinset H W,
        (if itx s.1 s.2 = 1 then kernel hypotQ g w s.1 s.2 c.1 c.2 else 0)

/-- Frontier cells are Nature cells: every in-range cell marked active
frontier (`1`) has class Nature (`0`).  Established at construction and
preserved by every growth step. -/
def itx_inv (H W : ℕ) (state_arr green_itx_arr : GridZ) : Prop :=
  ∀ c ∈ rangeFinset H W, green_itx_arr c.1 c.2 = 1 → state_arr c.1 c.2 = 0

/-- `validate_span` as the spec describes it, with clause (c) amended to the
code's actual check: the smaller of the two per-axis maxima (rather than the
second-largest value among all four rays) must reach the short-span
minimum. -/
def green_rays_amended (state_arr : GridZ) (H W : ℕ) (y x : ℤ)
    (granularity_m min_long_green_span_m min_short_green_span_m : ℕ) : Bool :=
  let x_ray_l := green_ray (fun i => state_arr y i) W x false
  let x_ray_r := green_ray (fun i => state_arr y i) W x true
  let y_ray_l := green_ray (fun i => state_arr i x) H y false
  let y_ray_r := green_ray (fun i => state_arr i x) H y true
  let x_min := min x_ray_l x_ray_r
  let x_max := max x_ray_l x_ray_r
  let y_min := min y_ray_l y_ray_r
  let y_max := max y_ray_l y_ray_r
  let m_lo := min x_max y_max
  let m_hi := max x_max y_max
  if x_min ≠ 0 ∧ (x_min : ℚ) < (min_short_green_span_m : ℚ) / (granularity_m : ℚ) then false
  else if y_min ≠ 0 ∧ (y_min : ℚ) < (min_short_green_span_m : ℚ) / (granularity_m : ℚ) then false
  else if (m_hi : ℚ) < (min_long_green_span_m : ℚ) / (granularity_m : ℚ) then false
  else if (m_lo : ℚ) < (min_short_green_span_m : ℚ) / (granularity_m : ℚ) then false
  else true

/-- `validate_span` as the claim literally states it: clause (c) compares the
second-largest value among the four rays against the short-span minimum. -/
def green_rays_claimed (state_arr : GridZ) (H W : ℕ) (y x : ℤ)
    (granularity_m min_long_green_span_m min_short_green_span_m : ℕ) : Bool :=
  let x_ray_l := green_ray (fun i => state_arr y i) W x false
  let x_ray_r := green_ray (fun i => state_arr y i) W x true
  let y_ray_l := green_ray (fun i => state_arr i x) H y false
  let y_ray_r := green_ray (fun i => state_arr i x) H y true
  let x_min := min x_ray_l x_ray_r
  let x_max := max x_ray_l x_ray_r
  let y_min := min y_ray_l y_ray_r
  let y_max := max y_ray_l y_ray_r
  let m_hi := max x_max y_max
  let second := (List.insertionSort (· ≤ ·) [x_ray_l, x_ray_r, y_ray_l, y_ray_r]).getD 2 0
  if x_min ≠ 0 ∧ (x_min : ℚ) < (min_short_green_span_m : ℚ) / (granularity_m : ℚ) then false
  else if y_min ≠ 0 ∧ (y_min : ℚ) < (min_short_green_span_m : ℚ) / (granularity_m : ℚ) then false
  else if (m_hi : ℚ) < (min_long_green_span_m : ℚ) / (granularity_m : ℚ) then false
  else if (second : ℚ) < (min_short_green_span_m : ℚ) / (granularity_m : ℚ) then false
  else true

/-! ### Concrete configurations used by counterexamples and witnesses -/

/-- 1×4 strip whose only built cell is the leftmost one. -/
def cexState : GridZ := fun y x => if y = 0 ∧ x = 0 then 1 else 0

/-- The frontier array bootstrapped from `cexState` (one active frontier
cell, at index 1), written out explicitly; the counterexample theorem proves
it agrees with `_compute_green_itx`'s output on every in-range cell. -/
def cexItx : GridZ := fun y x => if y = 0 ∧ x = 1 then 1 else 0

/-- The green access surface bootstrapped from `cexState`, written out
explicitly (the single active frontier cell contributes 1 to itself and 0 at
distance 100 m = the walking radius). -/
def cexAcc : GridQ := fun y x => if y = 0 ∧ x = 1 then 1 else 0

/-- 3×3 grid realising the queen ring `[1,0,0,0,0,0,0,1]` around cell
`(1,1)`. -/
def ringState : GridZ := fun y x => if (y = 2 ∧ x = 0) ∨ (y = 1 ∧ x = 0) then 1 else 0

/-- 3×3 grid whose corner `(0,0)` sees the in-bounds queen ring `[1,0,1]`. -/
def cornerState : GridZ := fun y x => if (y = 1 ∧ x = 0) ∨ (y = 0 ∧ x = 1) then 1 else 0

/-- All-built grid (interior cells see a full ring of class 1). -/
def fullState : GridZ := fun _ _ => 1

/-- All-Nature grid. -/
def natureState : GridZ := fun _ _ => 0

/-- 3×11 grid for the span counterexample: row 0 fully built, cell `(1,0)`
built, everything else Nature.  At `(1,5)` the rays are left 4, right 5,
up 0, down 1. -/
def spanState : GridZ := fun y x => if (y = 1 ∧ x = 0) ∨ y = 0 then 1 else 0

/-- Parameter set with a zero walking radius (all other values are the
constructor defaults except `min_green_km2`, kept small so that the area
check passes on a tiny grid). -/
def zeroWalkParams : Params :=
  { granularity_m := 100
    walk_dist_m := 0
    build_prob := 1 / 10
    cent_prob_nb := 1 / 20
    cent_prob_isol := 0
    max_local_pop := 10000
    prob_distribution := (7 / 10, 3 / 10, 0)
    density_factors := (1, 1 / 10, 1 / 100)
    min_green_km2 := 0
    min_long_green_span_m := 500
    min_short_green_span_m := 100 }

/-! ### Basic lemmas -/

lemma upd_self {α : Type} (g : ℤ → ℤ → α) (y x : ℤ) (v : α) : upd g y x v y x = v := by
  simp [upd]

lemma upd_ne {α : Type} (g : ℤ → ℤ → α) (y x : ℤ) (v : α) (y' x' : ℤ)
    (h : ¬(y' = y ∧ x' = x)) : upd g y x v y' x' = g y' x' := by
  simp [upd, h]

lemma mem_rangeList {H W : ℕ} {c : ℤ × ℤ} :
    c ∈ rangeList H W ↔ 0 ≤ c.1 ∧ c.1 < (H : ℤ) ∧ 0 ≤ c.2 ∧ c.2 < (W : ℤ) := by
  obtain ⟨cy, cx⟩ := c
  constructor
  · intro h
    simp only [rangeList, List.mem_map] at h
    obtain ⟨⟨a, b⟩, hab, heq⟩ := h
    rw [List.mem_product] at hab
    simp only [List.mem_range] at hab
    have e1 : (a : ℤ) = cy := congrArg Prod.fst heq
    have e2 : (b : ℤ) = cx := congrArg Prod.snd heq
    refine ⟨?_, ?_, ?_, ?_⟩ <;> omega
  · rintro ⟨h1, h2, h3, h4⟩
    refine List.mem_map.mpr ⟨(cy.toNat, cx.toNat), ?_, ?_⟩
    · rw [List.mem_product]
      simp only [List.mem_range]
      constructor <;> omega
    · simp only [Prod.mk.injEq]
      constructor <;> omega

lemma mem_rangeFinset {H W : ℕ} {c : ℤ × ℤ} :
    c ∈ rangeFinset H W ↔ 0 ≤ c.1 ∧ c.1 < (H : ℤ) ∧ 0 ≤ c.2 ∧ c.2 < (W : ℤ) := by
  rw [rangeFinset, List.mem_toFinset, mem_rangeList]

lemma rangeList_nodup (H W : ℕ) : (rangeList H W).Nodup := by
  refine List.Nodup.map ?_ (List.Nodup.product (List.nodup_range _) (List.nodup_range _))
  rintro ⟨a, b⟩ ⟨a', b'⟩ h
  simp only [Prod.mk.injEq] at h ⊢
  exact ⟨by exact_mod_cast h.1, by exact_mod_cast h.2⟩

lemma inc_access_apply (hypotQ : ℕ → ℕ → ℚ) (g w : ℕ) (y x : ℤ) (arr : GridQ)
    (cy cx : ℤ) :
    inc_access hypotQ g w y x arr cy cx = arr cy cx + kernel hypotQ g w y x cy cx := by
  simp only [inc_access, agg_access, kernel]
  split <;> simp

lemma decr_access_apply (hypotQ : ℕ → ℕ → ℚ) (g w : ℕ) (y x : ℤ) (arr : GridQ)
    (cy cx : ℤ) :
    decr_access hypotQ g w y x arr cy cx = arr cy cx - kernel hypotQ g w y x cy cx := by
  simp only [decr_access, agg_access, kernel]
  split <;> simp

lemma kernel_nonneg (hypotQ : ℕ → ℕ → ℚ) (hq0 : ∀ a b, 0 ≤ hypotQ a b) (g w : ℕ)
    (sy sx cy cx : ℤ) : 0 ≤ kernel hypotQ g w sy sx cy cx := by
  simp only [kernel]
  split
  · exact le_refl 0
  · rename_i h
    push_neg at h
    rcases Nat.eq_zero_or_pos w with hw | hw
    · subst hw
      have h0 : hypotQ ((sx - cx).natAbs * g) ((sy - cy).natAbs * g) = 0 :=
        le_antisymm (by exact_mod_cast h) (hq0 _ _)
      simp [h0]
    · have hwpos : (0 : ℚ) < (w : ℚ) := by exact_mod_cast hw
      have : hypotQ ((sx - cx).natAbs * g) ((sy - cy).natAbs * g) / (w : ℚ) ≤ 1 :=
        (div_le_one hwpos).mpr h
      linarith

lemma iter_nbs_mem_range {H W : ℕ} {y x : ℤ} {rook : Bool} {nb : ℤ × ℤ}
    (h : nb ∈ iter_nbs H W y x rook) : nb ∈ rangeFinset H W := by
  rw [mem_rangeFinset]
  simp only [iter_nbs, List.mem_filterMap] at h
  obtain ⟨o, _, ho⟩ := h
  split at ho
  · rename_i hg
    obtain rfl := Option.some.injEq .. ▸ ho
    exact hg
  · exact absurd ho (by simp)

lemma self_not_mem_iter_nbs (H W : ℕ) (y x : ℤ) (rook : Bool) :
    (y, x) ∉ iter_nbs H W y x rook := by
  intro h
  simp only [iter_nbs, List.mem_filterMap] at h
  obtain ⟨o, ho, hs⟩ := h
  have hne : o = (0, 0) := by
    split at hs
    · have heq := Option.some.inj hs
      have h1 : y + o.1 = y := congrArg Prod.fst heq
      have h2 : x + o.2 = x := congrArg Prod.snd heq
      obtain ⟨o1, o2⟩ := o
      simp only [Prod.mk.injEq]
      constructor <;> omega
    · exact absurd hs (by simp)
  subst hne
  cases rook <;> simp [Prod.ext_iff] at ho

/-! ### Consistency of the incrementally maintained green access surface -/

lemma sum_upd (hypotQ : ℕ → ℕ → ℚ) (g w H W : ℕ) (itx : GridZ) (s₀ : ℤ × ℤ)
    (hs : s₀ ∈ rangeFinset H W) (v : ℤ) (c : ℤ × ℤ) :
    (∑ s ∈ rangeFinset H W,
        (if upd itx s₀.1 s₀.2 v s.1 s.2 = 1 then kernel hypotQ g w s.1 s.2 c.1 c.2 else 0)) =
      (∑ s ∈ rangeFinset H W,
        (if itx s.1 s.2 = 1 then kernel hypotQ g w s.1 s.2 c.1 c.2 else 0)) -
      (if itx s₀.1 s₀.2 = 1 then kernel hypotQ g w s₀.1 s₀.2 c.1 c.2 else 0) +
      (if v = 1 then kernel hypotQ g w s₀.1 s₀.2 c.1 c.2 else 0) := by
  rw [← Finset.sum_erase_add _ _ hs, ← Finset.sum_erase_add _ (fun s =>
    (if itx s.1 s.2 = 1 then kernel hypotQ g w s.1 s.2 c.1 c.2 else 0)) hs]
  have hcong : ∀ s ∈ (rangeFinset H W).erase s₀,
      (if upd itx s₀.1 s₀.2 v s.1 s.2 = 1 then kernel hypotQ g w s.1 s.2 c.1 c.2 else 0) =
        (if itx s.1 s.2 = 1 then kernel hypotQ g w s.1 s.2 c.1 c.2 else 0) := by
    intro s hsErase
    have hne : s ≠ s₀ := Finset.ne_of_mem_erase hsErase
    rw [upd_ne]
    intro hcoord
    exact hne (Prod.ext hcoord.1 hcoord.2)
  rw [Finset.sum_congr rfl hcong, upd_self]
  ring

lemma consistent_activate (hypotQ : ℕ → ℕ → ℚ) (g w H W : ℕ) (itx : GridZ) (acc : GridQ)
    (s₀ : ℤ × ℤ) (hs : s₀ ∈ rangeFinset H W) (h1 : itx s₀.1 s₀.2 ≠ 1)
    (hc : consistent hypotQ g w H W itx acc) :
    consistent hypotQ g w H W (upd itx s₀.1 s₀.2 1)
      (inc_access hypotQ g w s₀.1 s₀.2 acc) := by
  intro c hcR
  rw [inc_access_apply, hc c hcR, sum_upd hypotQ g w H W itx s₀ hs 1 c, if_neg h1, if_pos rfl]
  ring

lemma consistent_deactivate (hypotQ : ℕ → ℕ → ℚ) (g w H W : ℕ) (itx : GridZ) (acc : GridQ)
    (s₀ : ℤ × ℤ) (hs : s₀ ∈ rangeFinset H W) (h1 : itx s₀.1 s₀.2 = 1)
    (hc : consistent hypotQ g w H W itx acc) :
    consistent hypotQ g w H W (upd itx s₀.1 s₀.2 0)
      (decr_access hypotQ g w s₀.1 s₀.2 acc) := by
  intro c hcR
  rw [decr_access_apply, hc c hcR, sum_upd hypotQ g w H W itx s₀ hs 0 c, if_pos h1]
  norm_num

lemma fold_activate_consistent (hypotQ : ℕ → ℕ → ℚ) (g w H W : ℕ) (state_arr : GridZ) :
    ∀ (l : List (ℤ × ℤ)) (p : GridZ × GridQ), (∀ nb ∈ l, nb ∈ rangeFinset H W) →
      consistent hypotQ g w H W p.1 p.2 →
      consistent hypotQ g w H W
        (l.foldl (fun p nb =>
          if state_arr nb.1 nb.2 = 0 ∧ p.1 nb.1 nb.2 = 0 then
            (upd p.1 nb.1 nb.2 1, inc_access hypotQ g w nb.1 nb.2 p.2)
          else p) p).1
        (l.foldl (fun p nb =>
          if state_arr nb.1 nb.2 = 0 ∧ p.1 nb.1 nb.2 = 0 then
            (upd p.1 nb.1 nb.2 1, inc_access hypotQ g w nb.1 nb.2 p.2)
          else p) p).2 := by
  intro l
  induction l with
  | nil => intro p _ hc; exact hc
  | cons nb l ih =>
    intro p hmem hc
    simp only [List.foldl_cons]
    apply ih _ (fun d hd => hmem d (List.mem_cons_of_mem nb hd))
    split
    · rename_i hcond
      exact consistent_activate hypotQ g w H W p.1 p.2 nb
        (hmem nb (List.mem_cons_self nb l)) (by rw [hcond.2]; decide) hc
    · exact hc

lemma green_state_work_consistent (hypotQ : ℕ → ℕ → ℚ) (g w H W : ℕ) (y x : ℤ)
    (state_arr itx : GridZ) (acc : GridQ) (hyx : (y, x) ∈ rangeFinset H W)
    (hc : consistent hypotQ g w H W itx acc) :
    consistent hypotQ g w H W
      (green_state_work hypotQ g w H W y x state_arr itx acc).1
      (green_state_work hypotQ g w H W y x state_arr itx acc).2 := by
  rw [green_state_work]
  apply fold_activate_consistent hypotQ g w H W state_arr _ _
    (fun nb hnb => iter_nbs_mem_range hnb)
  split
  · rename_i h1
    exact consistent_deactivate hypotQ g w H W itx acc (y, x) hyx h1 hc
  · exact hc

lemma fold_activate_mono (hypotQ : ℕ → ℕ → ℚ) (hq0 : ∀ a b, 0 ≤ hypotQ a b)
    (g w H W : ℕ) (state_arr : GridZ) :
    ∀ (l : List (ℤ × ℤ)) (p : GridZ × GridQ) (cy cx : ℤ),
      p.2 cy cx ≤
        (l.foldl (fun p nb =>
          if state_arr nb.1 nb.2 = 0 ∧ p.1 nb.1 nb.2 = 0 then
            (upd p.1 nb.1 nb.2 1, inc_access hypotQ g w nb.1 nb.2 p.2)
          else p) p).2 cy cx := by
  intro l
  induction l with
  | nil => intro p cy cx; exact le_refl _
  | cons nb l ih =>
    intro p cy cx
    simp only [List.foldl_cons]
    refine le_trans ?_ (ih _ cy cx)
    split
    · dsimp only
      rw [inc_access_apply]
      have := kernel_nonneg hypotQ hq0 g w nb.1 nb.2 cy cx
      linarith
    · exact le_refl _

lemma work_acc_mono (hypotQ : ℕ → ℕ → ℚ) (hq0 : ∀ a b, 0 ≤ hypotQ a b)
    (g w H W : ℕ) (y x : ℤ) (state_arr itx : GridZ) (acc : GridQ)
    (hnd : itx y x ≠ 1) (cy cx : ℤ) :
    acc cy cx ≤ (green_state_work hypotQ g w H W y x state_arr itx acc).2 cy cx := by
  rw [green_state_work, if_neg hnd]
  exact fold_activate_mono hypotQ hq0 g w H W state_arr _ _ cy cx

lemma strands_eq_false (H W : ℕ) (old_acc new_acc : GridQ)
    (hmono : ∀ cy cx : ℤ, old_acc cy cx ≤ new_acc cy cx) :
    strands H W old_acc new_acc = false := by
  rw [strands, List.any_eq_false]
  intro c _
  simp only [decide_eq_true_eq, not_and, not_lt]
  intro h
  have := hmono c.1 c.2
  linarith

lemma strands_iff (H W : ℕ) (old_acc new_acc : GridQ) :
    strands H W old_acc new_acc = true ↔
      ∃ c ∈ rangeFinset H W, old_acc c.1 c.2 - new_acc c.1 c.2 > 0 ∧
        new_acc c.1 c.2 = 0 ∧ old_acc c.1 c.2 > 0 := by
  rw [strands, List.any_eq_true]
  constructor
  · rintro ⟨c, hc, hp⟩
    exact ⟨c, List.mem_toFinset.mpr hc, of_decide_eq_true hp⟩
  · rintro ⟨c, hc, hp⟩
    exact ⟨c, List.mem_toFinset.mp hc, decide_eq_true hp⟩

lemma fold_activate_itx_one (hypotQ : ℕ → ℕ → ℚ) (g w H W : ℕ) (state_arr : GridZ) :
    ∀ (l : List (ℤ × ℤ)) (p : GridZ × GridQ) (cy cx : ℤ),
      (l.foldl (fun p nb =>
        if state_arr nb.1 nb.2 = 0 ∧ p.1 nb.1 nb.2 = 0 then
          (upd p.1 nb.1 nb.2 1, inc_access hypotQ g w nb.1 nb.2 p.2)
        else p) p).1 cy cx = 1 →
      p.1 cy cx = 1 ∨ state_arr cy cx = 0 := by
  intro l
  induction l with
  | nil => intro p cy cx h; exact Or.inl h
  | cons nb l ih =>
    intro p cy cx h
    simp only [List.foldl_cons] at h
    rcases ih _ cy cx h with h1 | h1
    · revert h1
      split
      · rename_i hcond
        dsimp only
        by_cases hcc : cy = nb.1 ∧ cx = nb.2
        · intro _
          right
          rw [hcc.1, hcc.2]
          exact hcond.1
        · rw [upd_ne _ _ _ _ _ _ hcc]
          exact Or.inl
      · exact Or.inl
    · exact Or.inr h1

lemma work_itx_one (hypotQ : ℕ → ℕ → ℚ) (g w H W : ℕ) (y x : ℤ)
    (state_arr itx : GridZ) (acc : GridQ) (cy cx : ℤ)
    (h : (green_state_work hypotQ g w H W y x state_arr itx acc).1 cy cx = 1) :
    itx cy cx = 1 ∨ state_arr cy cx = 0 := by
  rw [green_state_work] at h
  rcases fold_activate_itx_one hypotQ g w H W state_arr _ _ cy cx h with h1 | h1
  · revert h1
    split
    · dsimp only
      by_cases hcc : cy = y ∧ cx = x
      · rw [hcc.1, hcc.2, upd_self]
        intro h0
        exact absurd h0 (by decide)
      · rw [upd_ne _ _ _ _ _ _ hcc]
        exact Or.inl
    · exact Or.inl
  · exact Or.inr h1

lemma fold_activate_notin (hypotQ : ℕ → ℕ → ℚ) (g w H W : ℕ) (state_arr : GridZ) :
    ∀ (l : List (ℤ × ℤ)) (p : GridZ × GridQ) (cy cx : ℤ), (cy, cx) ∉ l →
      (l.foldl (fun p nb =>
        if state_arr nb.1 nb.2 = 0 ∧ p.1 nb.1 nb.2 = 0 then
          (upd p.1 nb.1 nb.2 1, inc_access hypotQ g w nb.1 nb.2 p.2)
        else p) p).1 cy cx = p.1 cy cx := by
  intro l
  induction l with
  | nil => intro p cy cx _; rfl
  | cons nb l ih =>
    intro p cy cx hnot
    simp only [List.foldl_cons]
    rw [ih _ cy cx (fun hmem => hnot (List.mem_cons_of_mem nb hmem))]
    split
    · dsimp only
      rw [upd_ne]
      intro hcc
      apply hnot
      rw [show ((cy, cx) : ℤ × ℤ) = nb from Prod.ext hcc.1 hcc.2]
      exact List.mem_cons_self nb l
    · rfl

lemma work_itx_self (hypotQ : ℕ → ℕ → ℚ) (g w H W : ℕ) (y x : ℤ)
    (state_arr itx : GridZ) (acc : GridQ) :
    (green_state_work hypotQ g w H W y x state_arr itx acc).1 y x =
      (if itx y x = 1 then 0 else itx y x) := by
  rw [green_state_work,
    fold_activate_notin hypotQ g w H W state_arr _ _ y x (self_not_mem_iter_nbs H W y x true)]
  split
  · exact upd_self itx y x 0
  · rfl

lemma green_state_no_deact (hypotQ : ℕ → ℕ → ℚ) (hq0 : ∀ a b, 0 ≤ hypotQ a b)
    (g w H W : ℕ) (y x : ℤ) (state_arr itx : GridZ) (acc : GridQ)
    (hnd : itx y x ≠ 1) :
    green_state hypotQ g w H W y x state_arr itx acc =
      (true, (green_state_work hypotQ g w H W y x state_arr itx acc).1,
        (green_state_work hypotQ g w H W y x state_arr itx acc).2) := by
  have hmono := work_acc_mono hypotQ hq0 g w H W y x state_arr itx acc hnd
  rw [green_state, strands_eq_false H W acc _ hmono]
  simp

lemma compute_green_itx_spec (hypotQ : ℕ → ℕ → ℚ) (hq0 : ∀ a b, 0 ≤ hypotQ a b)
    (g w H W : ℕ) (state_arr : GridZ) :
    consistent hypotQ g w H W (compute_green_itx hypotQ g w H W state_arr).1
        (compute_green_itx hypotQ g w H W state_arr).2 ∧
      itx_inv H W state_arr (compute_green_itx hypotQ g w H W state_arr).1 := by
  rw [compute_green_itx]
  have main : ∀ (l : List (ℤ × ℤ)) (p : GridZ × GridQ),
      (∀ c ∈ l, c ∈ rangeFinset H W) →
      consistent hypotQ g w H W p.1 p.2 →
      (∀ c ∈ rangeFinset H W, p.1 c.1 c.2 = 1 → state_arr c.1 c.2 = 0) →
      consistent hypotQ g w H W
          (l.foldl (fun p c =>
            if state_arr c.1 c.2 < 1 then p
            else
              let r := green_state hypotQ g w H W c.1 c.2 state_arr p.1 p.2
              (r.2.1, r.2.2)) p).1
          (l.foldl (fun p c =>
            if state_arr c.1 c.2 < 1 then p
            else
              let r := green_state hypotQ g w H W c.1 c.2 state_arr p.1 p.2
              (r.2.1, r.2.2)) p).2 ∧
        (∀ c ∈ rangeFinset H W,
          (l.foldl (fun p c =>
            if state_arr c.1 c.2 < 1 then p
            else
              let r := green_state hypotQ g w H W c.1 c.2 state_arr p.1 p.2
              (r.2.1, r.2.2)) p).1 c.1 c.2 = 1 → state_arr c.1 c.2 = 0) := by
    intro l
    induction l with
    | nil => intro p _ hc hi; exact ⟨hc, hi⟩
    | cons c l ih =>
      intro p hmem hc hi
      simp only [List.foldl_cons]
      by_cases hs : state_arr c.1 c.2 < 1
      · rw [if_pos hs]
        exact ih p (fun d hd => hmem d (List.mem_cons_of_mem c hd)) hc hi
      · rw [if_neg hs]
        have hcR : c ∈ rangeFinset H W := hmem c (List.mem_cons_self c l)
        have hnd : p.1 c.1 c.2 ≠ 1 := by
          intro h1
          exact hs (by rw [hi c hcR h1]; decide)
        have hgs := green_state_no_deact hypotQ hq0 g w H W c.1 c.2 state_arr p.1 p.2 hnd
        simp only [hgs]
        apply ih
        · exact fun d hd => hmem d (List.mem_cons_of_mem c hd)
        · exact green_state_work_consistent hypotQ g w H W c.1 c.2 state_arr p.1 p.2
            (by rw [show ((c.1, c.2) : ℤ × ℤ) = c from rfl]; exact hcR) hc
        · intro d hd h1
          rcases work_itx_one hypotQ g w H W c.1 c.2 state_arr p.1 p.2 d.1 d.2 h1 with h2 | h2
          · exact hi d hd h2
          · exact h2
  have base1 : consistent hypotQ g w H W (fun _ _ => (0 : ℤ)) (fun _ _ => (0 : ℚ)) := by
    intro c _
    rw [Finset.sum_congr rfl (fun s _ => if_neg (by simp))]
    rw [Finset.sum_const, smul_zero]
  have base2 : ∀ c ∈ rangeFinset H W, (fun _ _ => (0 : ℤ)) c.1 c.2 = 1 →
      state_arr c.1 c.2 = 0 := by
    intro c _ h
    exact absurd h (by simp)
  exact main (rangeList H W) _ (fun c hc => List.mem_toFinset.mpr hc) base1 base2

lemma land_init_some (hypotQ : ℕ → ℕ → ℚ) (hq0 : ∀ a b, 0 ≤ hypotQ a b)
    (rowcol : ℚ × ℚ → ℤ × ℤ) (P : Params) (H W : ℕ) (extents_arr : GridZ)
    (centre_seeds : List (ℚ × ℚ)) (L : Land)
    (h : land_init hypotQ rowcol P H W extents_arr centre_seeds = some L) :
    consistent hypotQ P.granularity_m P.walk_dist_m H W L.green_itx_arr L.green_acc_arr ∧
      itx_inv H W L.state_arr L.green_itx_arr := by
  rw [land_init] at h
  split at h
  · exact absurd h (by simp)
  · have hL := (Option.some.inj h).symm
    subst hL
    exact compute_green_itx_spec hypotQ hq0 P.granularity_m P.walk_dist_m H W _

/-! ### Claim theorems -/

/-- C1 (amended): after construction, and after every `update_on_built`
call that returns success, the green accessibility surface equals the sum of
the triangular contributions of all currently-active frontier cells.  (The
claim's extension to rejected calls is refuted by
`green_access_consistency_broken_on_rejection`: a rejected call keeps the
neighbour activations in the frontier array while returning the old
surface.) -/
theorem green_access_consistency (hypotQ : ℕ → ℕ → ℚ) (hq0 : ∀ a b, 0 ≤ hypotQ a b)
    (g w H W : ℕ) (state_arr itx : GridZ) (acc : GridQ) (y x : ℤ)
    (hyx : (y, x) ∈ rangeFinset H W)
    (hc : consistent hypotQ g w H W itx acc) :
    consistent hypotQ g w H W (compute_green_itx hypotQ g w H W state_arr).1
        (compute_green_itx hypotQ g w H W state_arr).2 ∧
      ((green_state hypotQ g w H W y x state_arr itx acc).1 = true →
        consistent hypotQ g w H W
          (green_state hypotQ g w H W y x state_arr itx acc).2.1
          (green_state hypotQ g w H W y x state_arr itx acc).2.2) := by
  constructor
  · exact (compute_green_itx_spec hypotQ hq0 g w H W state_arr).1
  · intro hsucc
    by_cases hst : strands H W acc
        (green_state_work hypotQ g w H W y x state_arr itx acc).2 = true
    · rw [green_state] at hsucc
      simp only [hst, if_true] at hsucc
      exact absurd hsucc (by simp)
    · have hst' := eq_false_of_ne_true hst
      rw [green_state]
      simp only [hst', Bool.false_eq_true, if_false]
      exact green_state_work_consistent hypotQ g w H W y x state_arr itx acc hyx hc

instance (hypotQ : ℕ → ℕ → ℚ) (g w H W : ℕ) (itx : GridZ) (acc : GridQ) :
    Decidable (consistent hypotQ g w H W itx acc) := by
  unfold consistent
  infer_instance

instance (H W : ℕ) (state_arr green_itx_arr : GridZ) :
    Decidable (itx_inv H W state_arr green_itx_arr) := by
  unfold itx_inv
  infer_instance

/-- Witness for C1: concrete instantiation on a 1×1 grid with the
axis-exact distance. -/
theorem green_access_consistency_witness :
    (∀ a b, (0 : ℚ) ≤ hypotRow a b) ∧
      ((0, 0) : ℤ × ℤ) ∈ rangeFinset 1 1 ∧
      consistent hypotRow 100 100 1 1 natureState (fun _ _ => 0) ∧
      (consistent hypotRow 100 100 1 1 (compute_green_itx hypotRow 100 100 1 1 fullState).1
          (compute_green_itx hypotRow 100 100 1 1 fullState).2 ∧
        ((green_state hypotRow 100 100 1 1 0 0 fullState natureState (fun _ _ => 0)).1 = true →
          consistent hypotRow 100 100 1 1
            (green_state hypotRow 100 100 1 1 0 0 fullState natureState (fun _ _ => 0)).2.1
            (green_state hypotRow 100 100 1 1 0 0 fullState natureState (fun _ _ => 0)).2.2)) := by
  have hc : consistent hypotRow 100 100 1 1 natureState (fun _ _ => 0) := by
    intro c hcm
    rw [show rangeFinset 1 1 = ({(0, 0)} : Finset (ℤ × ℤ)) from by decide,
      Finset.sum_singleton]
    norm_num [natureState]
  exact ⟨hypotRow_nonneg, by decide, hc,
    green_access_consistency hypotRow hypotRow_nonneg 100 100 1 1 fullState
      natureState (fun _ _ => 0) 0 0 (by decide) hc⟩

/-- Counterexample to C1 as stated: on the 1×4 strip `[Built, Nature,
Nature, Nature]` with 100 m cells and a 100 m walking radius, the
`update_on_built` call for cell `(0,1)` is rejected, and the returned pair
of frontier array and green access surface violates the consistency
invariant (cell `(0,2)` is marked active frontier but its contribution is
not in the returned surface). -/
theorem green_access_consistency_broken_on_rejection :
    (∀ x ∈ ([0, 1, 2, 3] : List ℤ),
      (compute_green_itx hypotRow 100 100 1 4 cexState).1 0 x = cexItx 0 x ∧
      (compute_green_itx hypotRow 100 100 1 4 cexState).2 0 x = cexAcc 0 x) ∧
    (green_state hypotRow 100 100 1 4 0 1 cexState cexItx cexAcc).1 = false ∧
    ¬ consistent hypotRow 100 100 1 4
        (green_state hypotRow 100 100 1 4 0 1 cexState cexItx cexAcc).2.1
        (green_state hypotRow 100 100 1 4 0 1 cexState cexItx cexAcc).2.2 := by
  have hstr : strands 1 4 cexAcc
      (green_state_work hypotRow 100 100 1 4 0 1 cexState cexItx cexAcc).2 = true := by
    rw [strands, green_state_work,
      show iter_nbs 1 4 0 1 true = [(0, 2), (0, 0)] from by decide,
      show rangeList 1 4 = [(0, 0), (0, 1), (0, 2), (0, 3)] from by decide]
    norm_num [inc_access, decr_access, agg_access, upd, cexState, cexItx, cexAcc, hypotRow]
  have hacc : (green_state hypotRow 100 100 1 4 0 1 cexState cexItx cexAcc).2.2 = cexAcc := by
    rw [green_state]
    simp only [hstr, if_true]
  have hitx : ∀ k : ℤ,
      (green_state hypotRow 100 100 1 4 0 1 cexState cexItx cexAcc).2.1 0 k =
        upd (green_state_work hypotRow 100 100 1 4 0 1 cexState cexItx cexAcc).1 0 1 2 0 k := by
    intro k
    rw [green_state]
    simp only [hstr, if_true]
  have hwk : ∀ k : ℤ, (green_state_work hypotRow 100 100 1 4 0 1 cexState cexItx cexAcc).1 0 k =
      upd (upd cexItx 0 1 0) 0 2 1 0 k := by
    intro k
    rw [green_state_work, show iter_nbs 1 4 0 1 true = [(0, 2), (0, 0)] from by decide]
    norm_num [upd, cexState, cexItx]
  refine ⟨?_, ?_, ?_⟩
  · intro x hx
    rw [compute_green_itx, show rangeList 1 4 = [(0, 0), (0, 1), (0, 2), (0, 3)] from by decide]
    fin_cases hx <;>
      norm_num [green_state, green_state_work, strands,
        show iter_nbs 1 4 0 0 true = [(0, 1)] from by decide,
        show rangeList 1 4 = [(0, 0), (0, 1), (0, 2), (0, 3)] from by decide,
        inc_access, decr_access, agg_access, upd, cexState, cexItx, cexAcc, hypotRow]
  · rw [green_state]
    simp only [hstr, if_true]
  · intro hcons
    have h2 := hcons (0, 2) (by decide)
    rw [hacc,
      show rangeFinset 1 4 = ({(0, 0), (0, 1), (0, 2), (0, 3)} : Finset (ℤ × ℤ)) from by decide]
      at h2
    rw [Finset.sum_insert (by decide), Finset.sum_insert (by decide),
      Finset.sum_insert (by decide), Finset.sum_singleton] at h2
    norm_num [hitx, hwk, upd, cexItx, cexAcc, kernel, hypotRow] at h2

/-- C2: `_green_state` rejects exactly when some in-range cell's access
value decreased to exactly zero from a positive value; on rejection the old
surface is returned unchanged and the cell is tombstoned (frontier value 2);
on success the working copy is committed, and consequently no in-range
cell's access drops from positive to zero across a successful call. -/
theorem green_state_rejection_spec (hypotQ : ℕ → ℕ → ℚ) (g w H W : ℕ) (y x : ℤ)
    (state_arr itx : GridZ) (acc : GridQ) :
    ((green_state hypotQ g w H W y x state_arr itx acc).1 = false ↔
      ∃ c ∈ rangeFinset H W,
        acc c.1 c.2 - (green_state_work hypotQ g w H W y x state_arr itx acc).2 c.1 c.2 > 0 ∧
        (green_state_work hypotQ g w H W y x state_arr itx acc).2 c.1 c.2 = 0 ∧
        acc c.1 c.2 > 0) ∧
    ((green_state hypotQ g w H W y x state_arr itx acc).1 = false →
      (green_state hypotQ g w H W y x state_arr itx acc).2.1 y x = 2 ∧
      (green_state hypotQ g w H W y x state_arr itx acc).2.2 = acc) ∧
    ((green_state hypotQ g w H W y x state_arr itx acc).1 = true →
      (green_state hypotQ g w H W y x state_arr itx acc).2.1 =
        (green_state_work hypotQ g w H W y x state_arr itx acc).1 ∧
      (green_state hypotQ g w H W y x state_arr itx acc).2.2 =
        (green_state_work hypotQ g w H W y x state_arr itx acc).2) ∧
    ((green_state hypotQ g w H W y x state_arr itx acc).1 = true →
      ∀ c ∈ rangeFinset H W, acc c.1 c.2 > 0 →
        (green_state hypotQ g w H W y x state_arr itx acc).2.2 c.1 c.2 ≠ 0) := by
  by_cases hst : strands H W acc
      (green_state_work hypotQ g w H W y x state_arr itx acc).2 = true
  · have hr : green_state hypotQ g w H W y x state_arr itx acc =
        (false, upd (green_state_work hypotQ g w H W y x state_arr itx acc).1 y x 2, acc) := by
      rw [green_state]
      simp only [hst, if_true]
    rw [hr]
    refine ⟨iff_of_true rfl ((strands_iff H W acc _).mp hst),
      fun _ => ⟨upd_self _ y x 2, rfl⟩, ?_, ?_⟩
    · intro h
      exact absurd h (by simp)
    · intro h
      exact absurd h (by simp)
  · have hst' := eq_false_of_ne_true hst
    have hr : green_state hypotQ g w H W y x state_arr itx acc =
        (true, (green_state_work hypotQ g w H W y x state_arr itx acc).1,
          (green_state_work hypotQ g w H W y x state_arr itx acc).2) := by
      rw [green_state]
      simp only [hst', Bool.false_eq_true, if_false]
    rw [hr]
    refine ⟨iff_of_false (by simp) ?_, ?_, fun _ => ⟨rfl, rfl⟩, ?_⟩
    · rintro ⟨c, hc, h1, h2, h3⟩
      exact hst ((strands_iff H W acc _).mpr ⟨c, hc, h1, h2, h3⟩)
    · intro h
      exact absurd h (by simp)
    · intro _ c hc hpos hzero
      exact hst ((strands_iff H W acc _).mpr ⟨c, hc, by linarith, hzero, hpos⟩)

/-- Witness for C2: the theorem instantiated at the concrete rejected call
of the 1×4 strip scenario, where the rejection branch is exercised. -/
theorem green_state_rejection_spec_witness :
    ((green_state hypotRow 100 100 1 4 0 1 cexState cexItx cexAcc).1 = false →
      (green_state hypotRow 100 100 1 4 0 1 cexState cexItx cexAcc).2.1 0 1 = 2 ∧
      (green_state hypotRow 100 100 1 4 0 1 cexState cexItx cexAcc).2.2 = cexAcc) ∧
    (green_state hypotRow 100 100 1 4 0 1 cexState cexItx cexAcc).1 = false := by
  have hstr : strands 1 4 cexAcc
      (green_state_work hypotRow 100 100 1 4 0 1 cexState cexItx cexAcc).2 = true := by
    rw [strands, green_state_work,
      show iter_nbs 1 4 0 1 true = [(0, 2), (0, 0)] from by decide,
      show rangeList 1 4 = [(0, 0), (0, 1), (0, 2), (0, 3)] from by decide]
    norm_num [inc_access, decr_access, agg_access, upd, cexState, cexItx, cexAcc, hypotRow]
  refine ⟨(green_state_rejection_spec hypotRow 100 100 1 4 0 1 cexState cexItx cexAcc).2.1, ?_⟩
  rw [green_state]
  simp only [hstr, if_true]

/-! ### Span validator (C4) -/

lemma rays_chains_eq (xl xr yl yr g long short : ℕ) :
    (if min xl xr + max xl xr ≠ 0 ∧ min xl xr ≠ 0 ∧
        ((min xl xr : ℕ) : ℚ) < (short : ℚ) / (g : ℚ) then false
      else if min yl yr + max yl yr ≠ 0 ∧ min yl yr ≠ 0 ∧
        ((min yl yr : ℕ) : ℚ) < (short : ℚ) / (g : ℚ) then false
      else if ((max (max xl xr) (max yl yr) : ℕ) : ℚ) < (long : ℚ) / (g : ℚ) then false
      else if ((min (max xl xr) (max yl yr) : ℕ) : ℚ) < (short : ℚ) / (g : ℚ) then false
      else true) =
    (if min xl xr ≠ 0 ∧ ((min xl xr : ℕ) : ℚ) < (short : ℚ) / (g : ℚ) then false
      else if min yl yr ≠ 0 ∧ ((min yl yr : ℕ) : ℚ) < (short : ℚ) / (g : ℚ) then false
      else if ((max (max xl xr) (max yl yr) : ℕ) : ℚ) < (long : ℚ) / (g : ℚ) then false
      else if ((min (max xl xr) (max yl yr) : ℕ) : ℚ) < (short : ℚ) / (g : ℚ) then false
      else true) := by
  by_cases hx : min xl xr ≠ 0 ∧ ((min xl xr : ℕ) : ℚ) < (short : ℚ) / (g : ℚ)
  · rw [if_pos ⟨by omega, hx.1, hx.2⟩, if_pos hx]
  · rw [if_neg (fun h => hx ⟨h.2.1, h.2.2⟩), if_neg hx]
    by_cases hy : min yl yr ≠ 0 ∧ ((min yl yr : ℕ) : ℚ) < (short : ℚ) / (g : ℚ)
    · rw [if_pos ⟨by omega, hy.1, hy.2⟩, if_pos hy]
    · rw [if_neg (fun h => hy ⟨h.2.1, h.2.2⟩), if_neg hy]

/-- C4 (amended): `validate_span` equals the spec's three-clause predicate
with clause (c) read as the code computes it — the smaller of the two
per-axis ray maxima must reach the short-span minimum (rather than the
second-largest value among all four rays) — and the claim's two concrete
examples behave as claimed: a cell with green extending 6 cells in one
direction and 0 in the other on both axes passes, a cell with exactly one
green cell in every direction fails (500 m long span, 100 m short span,
100 m cells). -/
theorem green_rays_spec_amended (state_arr : GridZ) (H W : ℕ) (y x : ℤ)
    (granularity_m min_long_green_span_m min_short_green_span_m : ℕ) :
    green_rays state_arr H W y x granularity_m min_long_green_span_m min_short_green_span_m =
      green_rays_amended state_arr H W y x granularity_m min_long_green_span_m
        min_short_green_span_m ∧
    green_rays natureState 7 7 6 6 100 500 100 = true ∧
    green_rays natureState 3 3 1 1 100 500 100 = false := by
  refine ⟨?_, ?_, ?_⟩
  · simp only [green_rays, green_rays_amended]
    exact rays_chains_eq
      (green_ray (fun i => state_arr y i) W x false)
      (green_ray (fun i => state_arr y i) W x true)
      (green_ray (fun i => state_arr i x) H y false)
      (green_ray (fun i => state_arr i x) H y true)
      granularity_m min_long_green_span_m min_short_green_span_m
  · rw [green_rays,
      show green_ray (fun i => natureState 6 i) 7 6 false = 6 from by decide,
      show green_ray (fun i => natureState 6 i) 7 6 true = 0 from by decide,
      show green_ray (fun i => natureState i 6) 7 6 false = 6 from by decide,
      show green_ray (fun i => natureState i 6) 7 6 true = 0 from by decide]
    norm_num
  · rw [green_rays,
      show green_ray (fun i => natureState 1 i) 3 1 false = 1 from by decide,
      show green_ray (fun i => natureState 1 i) 3 1 true = 1 from by decide,
      show green_ray (fun i => natureState i 1) 3 1 false = 1 from by decide,
      show green_ray (fun i => natureState i 1) 3 1 true = 1 from by decide]
    norm_num

/-- Counterexample to C4 as stated: at cell `(1,5)` of `spanState` the four
rays are left 4, right 5, up 0, down 1 (with 100 m cells, 500 m long span,
200 m short span).  The code rejects — the smaller per-axis maximum is the
down-ray 1, below the short minimum 2 — while the claim's clause (c), which
compares the second-largest of the four rays (4 ≥ 2), predicts acceptance. -/
theorem green_rays_claim_mismatch :
    green_rays spanState 3 11 1 5 100 500 200 = false ∧
      green_rays_claimed spanState 3 11 1 5 100 500 200 = true := by
  constructor
  · rw [green_rays,
      show green_ray (fun i => spanState 1 i) 11 5 false = 4 from by decide,
      show green_ray (fun i => spanState 1 i) 11 5 true = 5 from by decide,
      show green_ray (fun i => spanState i 5) 3 1 false = 0 from by decide,
      show green_ray (fun i => spanState i 5) 3 1 true = 1 from by decide]
    norm_num
  · rw [green_rays_claimed,
      show green_ray (fun i => spanState 1 i) 11 5 false = 4 from by decide,
      show green_ray (fun i => spanState 1 i) 11 5 true = 5 from by decide,
      show green_ray (fun i => spanState i 5) 3 1 false = 0 from by decide,
      show green_ray (fun i => spanState i 5) 3 1 true = 1 from by decide]
    norm_num

/-! ### Contiguous-run counting (C5) -/

lemma runs_fold_zero :
    ∀ l : List ℕ, (∀ v ∈ l, v = 0) →
      l.foldl (fun (p : List ℕ × ℕ) c =>
        if c = 1 then (p.1, p.2 + 1)
        else if p.2 > 0 then (p.1 ++ [p.2], 0)
        else p) ([], 0) = ([], 0) := by
  intro l
  induction l with
  | nil => intro _; rfl
  | cons c l ih =>
    intro h
    have hc := h c (List.mem_cons_self c l)
    simp only [List.foldl_cons, hc]
    rw [if_neg (by omega), if_neg (by omega)]
    exact ih (fun v hv => h v (List.mem_cons_of_mem c hv))

/-- C5 (amended): `count_contiguous_runs` merges the first and last runs
exactly when the ordered queen ring is the full 8-cell circle of an interior
cell and both ring ends match (the claim's merge rule without the
interior-cell condition is refuted by `count_cont_nbs_no_wrap_at_border`);
it returns `(0, 0)` when no neighbour matches, `(8, 1)` on a full interior
ring of the target class, and one run of length 2 on the ring
`[1,0,0,0,0,0,0,1]`. -/
theorem count_cont_nbs_spec (state_arr : GridZ) (H W : ℕ) (y x : ℤ)
    (target_vals : List ℤ) :
    ((nb_ring state_arr H W y x target_vals).length = 8 →
      (nb_ring state_arr H W y x target_vals).head? = some 1 →
      (nb_ring state_arr H W y x target_vals).getLast? = some 1 →
      1 < (runsOf (nb_ring state_arr H W y x target_vals)).length →
      count_cont_nbs state_arr H W y x target_vals =
        ((((runsOf (nb_ring state_arr H W y x target_vals)).set 0
            ((runsOf (nb_ring state_arr H W y x target_vals)).headD 0 +
              (runsOf (nb_ring state_arr H W y x target_vals)).getLastD 0)).dropLast).foldl
              max 0,
          (runsOf (nb_ring state_arr H W y x target_vals)).length - 1)) ∧
    ((∀ nb ∈ iter_nbs H W y x false, state_arr nb.1 nb.2 ∉ target_vals) →
      count_cont_nbs state_arr H W y x target_vals = (0, 0)) ∧
    count_cont_nbs fullState 3 3 1 1 [1] = (8, 1) ∧
    count_cont_nbs ringState 3 3 1 1 [1] = (2, 1) := by
  refine ⟨?_, ?_, by decide, by decide⟩
  · intro h8 hhead hlast hruns
    simp only [count_cont_nbs]
    have hcond : (runsOf (nb_ring state_arr H W y x target_vals)).length > 1 ∧
        (nb_ring state_arr H W y x target_vals).length = 8 ∧
        (nb_ring state_arr H W y x target_vals).head? = some 1 ∧
        (nb_ring state_arr H W y x target_vals).getLast? = some 1 :=
      ⟨hruns, h8, hhead, hlast⟩
    rw [if_pos hcond]
    have hne : ¬(((runsOf (nb_ring state_arr H W y x target_vals)).set 0
        ((runsOf (nb_ring state_arr H W y x target_vals)).headD 0 +
          (runsOf (nb_ring state_arr H W y x target_vals)).getLastD 0)).dropLast.isEmpty
          = true) := by
      rw [List.isEmpty_iff, ← List.length_eq_zero, List.length_dropLast, List.length_set]
      omega
    rw [if_neg hne, List.length_dropLast, List.length_set]
  · intro hnone
    have hring : ∀ v ∈ nb_ring state_arr H W y x target_vals, v = 0 := by
      intro v hv
      simp only [nb_ring, List.mem_map] at hv
      obtain ⟨nb, hnb, hveq⟩ := hv
      rw [← hveq, if_neg (hnone nb hnb)]
    rw [count_cont_nbs, runsOf, runs_fold_zero _ hring]
    simp

/-- Witness for C5: the merge-rule branch of the theorem exercised on the
concrete ring `[1,0,0,0,0,0,0,1]`. -/
theorem count_cont_nbs_spec_witness :
    (nb_ring ringState 3 3 1 1 [1]).length = 8 ∧
    (nb_ring ringState 3 3 1 1 [1]).head? = some 1 ∧
    (nb_ring ringState 3 3 1 1 [1]).getLast? = some 1 ∧
    1 < (runsOf (nb_ring ringState 3 3 1 1 [1])).length ∧
    count_cont_nbs ringState 3 3 1 1 [1] =
      ((((runsOf (nb_ring ringState 3 3 1 1 [1])).set 0
          ((runsOf (nb_ring ringState 3 3 1 1 [1])).headD 0 +
            (runsOf (nb_ring ringState 3 3 1 1 [1])).getLastD 0)).dropLast).foldl max 0,
        (runsOf (nb_ring ringState 3 3 1 1 [1])).length - 1) :=
  ⟨by decide, by decide, by decide, by decide,
    (count_cont_nbs_spec ringState 3 3 1 1 [1]).1 (by decide) (by decide) (by decide)
      (by decide)⟩

/-- Counterexample to C5 as stated: at the corner cell `(0,0)` of
`cornerState` the in-bounds queen ring is `[1,0,1]` — both ends match the
target class and there are two runs — yet the code does not merge them (the
wraparound join applies only to full 8-cell rings), returning `(1, 2)` where
the claim's unconditional merge rule predicts one run. -/
theorem count_cont_nbs_no_wrap_at_border :
    (nb_ring cornerState 3 3 0 0 [1]).head? = some 1 ∧
    (nb_ring cornerState 3 3 0 0 [1]).getLast? = some 1 ∧
    1 < (runsOf (nb_ring cornerState 3 3 0 0 [1])).length ∧
    count_cont_nbs cornerState 3 3 0 0 [1] = (1, 2) := by
  refine ⟨by decide, by decide, by decide, by decide⟩

/-! ### Construction checks (C7, C8) -/

/-- C7: construction fails (returning no engine) exactly when the extents
area in square kilometres is below twice `min_green_km2`; the check runs
before any derived state is built, so no partial engine exists on failure. -/
theorem land_init_rejects_small_extents (hypotQ : ℕ → ℕ → ℚ)
    (rowcol : ℚ × ℚ → ℤ × ℤ) (P : Params) (H W : ℕ) (extents_arr : GridZ)
    (centre_seeds : List (ℚ × ℚ)) :
    land_init hypotQ rowcol P H W extents_arr centre_seeds = none ↔
      ((H * P.granularity_m * W * P.granularity_m : ℕ) : ℚ) / (1000 * 1000) <
        2 * (P.min_green_km2 : ℚ) := by
  rw [land_init]
  split_ifs with h
  · exact iff_of_true rfl h
  · exact iff_of_false (by simp) h

/-- C8: the code has no construction-time precondition on the walking
radius: constructing an engine with `walk_dist_m = 0` succeeds, and the
aggregation primitive, reached with the zero divisor, computes
`1 - dist/0` at the source cell (exactly `1` in exact arithmetic where
`0/0 = 0`; a silent NaN in the float32 source) instead of being rejected. -/
theorem land_init_accepts_zero_walk :
    (land_init hypotRow (fun _ => (0, 0)) zeroWalkParams 2 2 natureState []).isSome = true ∧
      inc_access hypotRow 100 0 0 0 (fun _ _ => 0) 0 0 = 1 := by
  constructor
  · rw [land_init]
    rw [if_neg (by norm_num [zeroWalkParams])]
    rfl
  · norm_num [inc_access, agg_access, hypotRow]

/-! ### Density assignment (C9) -/

/-- C9: `_random_density` applied to the drawn uniform value `p` uses the
probability thresholds positionally: `density_factors[0]` when
`p ∈ [0, pd[0])`, otherwise `density_factors[1]` when `p ∈ [pd[1], pd[2])`,
otherwise `density_factors[2]`. -/
theorem random_density_spec (p : ℚ) (pd df : ℚ × ℚ × ℚ) :
    (0 ≤ p ∧ p < pd.1 → random_density p pd df = df.1) ∧
    (¬(0 ≤ p ∧ p < pd.1) → pd.2.1 ≤ p ∧ p < pd.2.2 → random_density p pd df = df.2.1) ∧
    (¬(0 ≤ p ∧ p < pd.1) → ¬(pd.2.1 ≤ p ∧ p < pd.2.2) → random_density p pd df = df.2.2) := by
  refine ⟨?_, ?_, ?_⟩
  · intro h
    rw [random_density, if_pos h]
  · intro h1 h2
    rw [random_density, if_neg h1, if_pos h2]
  · intro h1 h2
    rw [random_density, if_neg h1, if_neg h2]

/-- Witness for C9: the default parameters with `p = 1/2` fall in the first
band and return the first density factor. -/
theorem random_density_spec_witness :
    (0 ≤ (1 : ℚ) / 2 ∧ (1 : ℚ) / 2 < ((7 : ℚ) / 10, (3 : ℚ) / 10, (0 : ℚ)).1) ∧
      random_density ((1 : ℚ) / 2) ((7 : ℚ) / 10, (3 : ℚ) / 10, (0 : ℚ))
        ((1 : ℚ), (1 : ℚ) / 10, (1 : ℚ) / 100) = 1 :=
  ⟨⟨by norm_num, by norm_num⟩,
    (random_density_spec ((1 : ℚ) / 2) ((7 : ℚ) / 10, (3 : ℚ) / 10, (0 : ℚ))
        ((1 : ℚ), (1 : ℚ) / 10, (1 : ℚ) / 100)).1 ⟨by norm_num, by norm_num⟩⟩

/-! ### Growth-step machinery (C3, C6, C10) -/

lemma green_state_itx_one (hypotQ : ℕ → ℕ → ℚ) (g w H W : ℕ) (y x : ℤ)
    (state_arr itx : GridZ) (acc : GridQ) (cy cx : ℤ)
    (h : (green_state hypotQ g w H W y x state_arr itx acc).2.1 cy cx = 1) :
    itx cy cx = 1 ∨ state_arr cy cx = 0 := by
  rw [green_state] at h
  split at h <;> dsimp only at h
  · by_cases hcc : cy = y ∧ cx = x
    · rw [hcc.1, hcc.2, upd_self] at h
      exact absurd h (by decide)
    · rw [upd_ne _ _ _ _ _ _ hcc] at h
      exact work_itx_one hypotQ g w H W y x state_arr itx acc cy cx h
  · exact work_itx_one hypotQ g w H W y x state_arr itx acc cy cx h

lemma green_state_success_itx_self (hypotQ : ℕ → ℕ → ℚ) (g w H W : ℕ) (y x : ℤ)
    (state_arr itx : GridZ) (acc : GridQ)
    (hsucc : (green_state hypotQ g w H W y x state_arr itx acc).1 = true) :
    (green_state hypotQ g w H W y x state_arr itx acc).2.1 y x ≠ 1 := by
  rw [green_state] at hsucc ⊢
  split at hsucc
  · exact absurd hsucc (by simp)
  · rename_i hst
    rw [if_neg hst]
    dsimp only
    rw [work_itx_self]
    split
    · decide
    · assumption

lemma itx_inv_green_state (H W : ℕ) (state_arr itx : GridZ)
    (hinv : itx_inv H W state_arr itx) (hypotQ : ℕ → ℕ → ℚ) (g w : ℕ) (y x : ℤ)
    (acc : GridQ) :
    itx_inv H W state_arr (green_state hypotQ g w H W y x state_arr itx acc).2.1 := by
  intro d hd h1
  rcases green_state_itx_one hypotQ g w H W y x state_arr itx acc d.1 d.2 h1 with h2 | h2
  · exact hinv d hd h2
  · exact h2

lemma itx_inv_write (H W : ℕ) (state_arr itx : GridZ) (y x : ℤ) (v : ℤ)
    (hinv : itx_inv H W state_arr itx) (hne : itx y x ≠ 1) :
    itx_inv H W (upd state_arr y x v) itx := by
  intro d hd h1
  by_cases hcc : d.1 = y ∧ d.2 = x
  · exact absurd h1 (by rw [hcc.1, hcc.2]; exact hne)
  · rw [upd_ne _ _ _ _ _ _ hcc]
    exact hinv d hd h1

lemma iter_cell_frame (hypotQ : ℕ → ℕ → ℚ) (rand nb_rand : ℕ → ℚ) (P : Params) (H W : ℕ)
    (areas_arr : GridZ) (cell_area : ℤ) (p : Land × ℕ × ℕ) (c : ℤ × ℤ)
    (d : ℤ × ℤ) (hd : d ≠ c) :
    (iter_cell hypotQ rand nb_rand P H W areas_arr cell_area p c).1.state_arr d.1 d.2 =
      p.1.state_arr d.1 d.2 := by
  have hcc : ¬(d.1 = c.1 ∧ d.2 = c.2) := fun hh => hd (Prod.ext hh.1 hh.2)
  simp only [iter_cell]
  split_ifs
  all_goals try dsimp only
  all_goals first
    | rfl
    | exact upd_ne _ _ _ _ _ _ hcc

lemma iter_cell_inv (hypotQ : ℕ → ℕ → ℚ) (rand nb_rand : ℕ → ℚ) (P : Params) (H W : ℕ)
    (areas_arr : GridZ) (cell_area : ℤ) (p : Land × ℕ × ℕ) (c : ℤ × ℤ)
    (hc : c ∈ rangeFinset H W)
    (hinv : itx_inv H W p.1.state_arr p.1.green_itx_arr) :
    itx_inv H W (iter_cell hypotQ rand nb_rand P H W areas_arr cell_area p c).1.state_arr
      (iter_cell hypotQ rand nb_rand P H W areas_arr cell_area p c).1.green_itx_arr := by
  simp only [iter_cell]
  split_ifs
  all_goals try dsimp only
  all_goals first
    | exact hinv
    | (exact itx_inv_write H W p.1.state_arr _ c.1 c.2 _
        (itx_inv_green_state H W p.1.state_arr p.1.green_itx_arr hinv
          hypotQ P.granularity_m P.walk_dist_m c.1 c.2 p.1.green_acc_arr)
        (green_state_success_itx_self hypotQ P.granularity_m P.walk_dist_m H W c.1 c.2
          p.1.state_arr p.1.green_itx_arr p.1.green_acc_arr (by assumption)))
    | (exact itx_inv_green_state H W p.1.state_arr p.1.green_itx_arr hinv
        hypotQ P.granularity_m P.walk_dist_m c.1 c.2 p.1.green_acc_arr)

lemma iter_cell_self (hypotQ : ℕ → ℕ → ℚ) (rand nb_rand : ℕ → ℚ) (P : Params) (H W : ℕ)
    (areas_arr : GridZ) (cell_area : ℤ) (p : Land × ℕ × ℕ) (c : ℤ × ℤ)
    (hc : c ∈ rangeFinset H W)
    (hinv : itx_inv H W p.1.state_arr p.1.green_itx_arr) :
    (iter_cell hypotQ rand nb_rand P H W areas_arr cell_area p c).1.state_arr c.1 c.2 =
        p.1.state_arr c.1 c.2 ∨
      (p.1.state_arr c.1 c.2 = 0 ∧
        ((iter_cell hypotQ rand nb_rand P H W areas_arr cell_area p c).1.state_arr c.1 c.2 = 1 ∨
          (iter_cell hypotQ rand nb_rand P H W areas_arr cell_area p c).1.state_arr c.1 c.2 = 2)) := by
  simp only [iter_cell]
  split_ifs
  all_goals try dsimp only
  all_goals first
    | exact Or.inl rfl
    | (exact Or.inr ⟨hinv c hc (by assumption), Or.inl (upd_self _ c.1 c.2 1)⟩)
    | (exact Or.inr ⟨hinv c hc (by assumption), Or.inr (upd_self _ c.1 c.2 2)⟩)
    | (exact Or.inr ⟨by assumption, Or.inr (upd_self _ c.1 c.2 2)⟩)

lemma iter_cell_counts (hypotQ : ℕ → ℕ → ℚ) (rand nb_rand : ℕ → ℚ) (P : Params) (H W : ℕ)
    (areas_arr : GridZ) (cell_area : ℤ) (p : Land × ℕ × ℕ) (c : ℤ × ℤ)
    (hc : c ∈ rangeFinset H W)
    (hinv : itx_inv H W p.1.state_arr p.1.green_itx_arr) :
    ((iter_cell hypotQ rand nb_rand P H W areas_arr cell_area p c).1.state_arr c.1 c.2 =
        p.1.state_arr c.1 c.2 →
      (iter_cell hypotQ rand nb_rand P H W areas_arr cell_area p c).2 = p.2) ∧
    (p.1.state_arr c.1 c.2 ≠ 1 →
      (iter_cell hypotQ rand nb_rand P H W areas_arr cell_area p c).1.state_arr c.1 c.2 = 1 →
      (iter_cell hypotQ rand nb_rand P H W areas_arr cell_area p c).2.1 = p.2.1 + 1 ∧
      (iter_cell hypotQ rand nb_rand P H W areas_arr cell_area p c).2.2 = p.2.2) ∧
    (p.1.state_arr c.1 c.2 ≠ 2 →
      (iter_cell hypotQ rand nb_rand P H W areas_arr cell_area p c).1.state_arr c.1 c.2 = 2 →
      (iter_cell hypotQ rand nb_rand P H W areas_arr cell_area p c).2.1 = p.2.1 ∧
      (iter_cell hypotQ rand nb_rand P H W areas_arr cell_area p c).2.2 = p.2.2 + 1) := by
  simp only [iter_cell]
  split_ifs
  all_goals try dsimp only
  all_goals refine ⟨fun heq => ?_, fun hne1 hw1 => ?_, fun hne2 hw2 => ?_⟩
  all_goals first
    | rfl
    | exact absurd hw1 hne1
    | exact absurd hw2 hne2
    | exact ⟨rfl, rfl⟩
    | (rw [upd_self] at hw1; exact absurd hw1 (by decide))
    | (rw [upd_self] at hw2; exact absurd hw2 (by decide))
    | (rw [upd_self] at heq
       exact absurd (heq.trans (hinv c hc (by assumption))) (by decide))
    | (rw [upd_self] at heq
       exact absurd (heq.trans (by assumption : p.1.state_arr c.1 c.2 = 0)) (by decide))

lemma iter_fold_key (hypotQ : ℕ → ℕ → ℚ) (rand nb_rand : ℕ → ℚ) (P : Params) (H W : ℕ)
    (areas_arr : GridZ) (cell_area : ℤ) :
    ∀ (l : List (ℤ × ℤ)) (p : Land × ℕ × ℕ), l.Nodup →
      (∀ c ∈ l, c ∈ rangeFinset H W) →
      itx_inv H W p.1.state_arr p.1.green_itx_arr →
      itx_inv H W
          (l.foldl (iter_cell hypotQ rand nb_rand P H W areas_arr cell_area) p).1.state_arr
          (l.foldl (iter_cell hypotQ rand nb_rand P H W areas_arr cell_area) p).1.green_itx_arr ∧
        (∀ d : ℤ × ℤ, d ∉ l →
          (l.foldl (iter_cell hypotQ rand nb_rand P H W areas_arr cell_area) p).1.state_arr d.1 d.2 =
            p.1.state_arr d.1 d.2) ∧
        (∀ d ∈ rangeFinset H W,
          (l.foldl (iter_cell hypotQ rand nb_rand P H W areas_arr cell_area) p).1.state_arr d.1 d.2 =
              p.1.state_arr d.1 d.2 ∨
            (p.1.state_arr d.1 d.2 = 0 ∧
              ((l.foldl (iter_cell hypotQ rand nb_rand P H W areas_arr cell_area) p).1.state_arr d.1 d.2 = 1 ∨
                (l.foldl (iter_cell hypotQ rand nb_rand P H W areas_arr cell_area) p).1.state_arr d.1 d.2 = 2))) ∧
        (l.foldl (iter_cell hypotQ rand nb_rand P H W areas_arr cell_area) p).2.1 = p.2.1 +
          (l.filter (fun e => decide
            ((l.foldl (iter_cell hypotQ rand nb_rand P H W areas_arr cell_area) p).1.state_arr e.1 e.2 = 1 ∧
              p.1.state_arr e.1 e.2 ≠ 1))).length ∧
        (l.foldl (iter_cell hypotQ rand nb_rand P H W areas_arr cell_area) p).2.2 = p.2.2 +
          (l.filter (fun e => decide
            ((l.foldl (iter_cell hypotQ rand nb_rand P H W areas_arr cell_area) p).1.state_arr e.1 e.2 = 2 ∧
              p.1.state_arr e.1 e.2 ≠ 2))).length := by
  intro l
  induction l with
  | nil =>
    intro p _ _ hinv
    exact ⟨hinv, fun d _ => rfl, fun d _ => Or.inl rfl, by simp, by simp⟩
  | cons c l ih =>
    intro p hnd hmem hinv
    have hc : c ∈ rangeFinset H W := hmem c (List.mem_cons_self c l)
    have hcnotl : c ∉ l := (List.nodup_cons.mp hnd).1
    have hndl : l.Nodup := (List.nodup_cons.mp hnd).2
    have hmeml : ∀ e ∈ l, e ∈ rangeFinset H W := fun e he => hmem e (List.mem_cons_of_mem c he)
    have hinv1 := iter_cell_inv hypotQ rand nb_rand P H W areas_arr cell_area p c hc hinv
    obtain ⟨ihinv, ihframe, ihcases, ihb, ihk⟩ :=
      ih (iter_cell hypotQ rand nb_rand P H W areas_arr cell_area p c) hndl hmeml hinv1
    simp only [List.foldl_cons]
    have hqc : (l.foldl (iter_cell hypotQ rand nb_rand P H W areas_arr cell_area)
          (iter_cell hypotQ rand nb_rand P H W areas_arr cell_area p c)).1.state_arr c.1 c.2 =
        (iter_cell hypotQ rand nb_rand P H W areas_arr cell_area p c).1.state_arr c.1 c.2 :=
      ihframe c hcnotl
    have hframe1 : ∀ d : ℤ × ℤ, d ≠ c →
        (iter_cell hypotQ rand nb_rand P H W areas_arr cell_area p c).1.state_arr d.1 d.2 =
          p.1.state_arr d.1 d.2 :=
      fun d hd => iter_cell_frame hypotQ rand nb_rand P H W areas_arr cell_area p c d hd
    obtain ⟨hcnt1, hcnt2, hcnt3⟩ :=
      iter_cell_counts hypotQ rand nb_rand P H W areas_arr cell_area p c hc hinv
    have hfilter1 : l.filter (fun e => decide
        ((l.foldl (iter_cell hypotQ rand nb_rand P H W areas_arr cell_area)
            (iter_cell hypotQ rand nb_rand P H W areas_arr cell_area p c)).1.state_arr e.1 e.2 = 1 ∧
          (iter_cell hypotQ rand nb_rand P H W areas_arr cell_area p c).1.state_arr e.1 e.2 ≠ 1)) =
        l.filter (fun e => decide
        ((l.foldl (iter_cell hypotQ rand nb_rand P H W areas_arr cell_area)
            (iter_cell hypotQ rand nb_rand P H W areas_arr cell_area p c)).1.state_arr e.1 e.2 = 1 ∧
          p.1.state_arr e.1 e.2 ≠ 1)) := by
      refine List.filter_congr ?_
      intro e he
      rw [hframe1 e (fun h => hcnotl (h ▸ he))]
    have hfilter2 : l.filter (fun e => decide
        ((l.foldl (iter_cell hypotQ rand nb_rand P H W areas_arr cell_area)
            (iter_cell hypotQ rand nb_rand P H W areas_arr cell_area p c)).1.state_arr e.1 e.2 = 2 ∧
          (iter_cell hypotQ rand nb_rand P H W areas_arr cell_area p c).1.state_arr e.1 e.2 ≠ 2)) =
        l.filter (fun e => decide
        ((l.foldl (iter_cell hypotQ rand nb_rand P H W areas_arr cell_area)
            (iter_cell hypotQ rand nb_rand P H W areas_arr cell_area p c)).1.state_arr e.1 e.2 = 2 ∧
          p.1.state_arr e.1 e.2 ≠ 2)) := by
      refine List.filter_congr ?_
      intro e he
      rw [hframe1 e (fun h => hcnotl (h ▸ he))]
    refine ⟨ihinv, ?_, ?_, ?_, ?_⟩
    · intro d hd
      rw [ihframe d (fun h => hd (List.mem_cons_of_mem c h)),
        hframe1 d (fun h => hd (h ▸ List.mem_cons_self c l))]
    · intro d hdR
      by_cases hdc : d = c
      · subst hdc
        rcases iter_cell_self hypotQ rand nb_rand P H W areas_arr cell_area p d hc hinv with h | ⟨h0, hv⟩
        · exact Or.inl (hqc.trans h)
        · rcases hv with h1 | h2
          · exact Or.inr ⟨h0, Or.inl (hqc.trans h1)⟩
          · exact Or.inr ⟨h0, Or.inr (hqc.trans h2)⟩
      · rcases ihcases d hdR with h | ⟨h0, hv⟩
        · exact Or.inl (h.trans (hframe1 d hdc))
        · exact Or.inr ⟨(hframe1 d hdc).symm.trans h0, hv⟩
    · rw [List.filter_cons, ihb, hfilter1]
      rcases iter_cell_self hypotQ rand nb_rand P H W areas_arr cell_area p c hc hinv with h | ⟨h0, hv⟩
      · have hp2 := hcnt1 h
        have hcond : ¬((l.foldl (iter_cell hypotQ rand nb_rand P H W areas_arr cell_area)
            (iter_cell hypotQ rand nb_rand P H W areas_arr cell_area p c)).1.state_arr c.1 c.2 = 1 ∧
              p.1.state_arr c.1 c.2 ≠ 1) := by
          rw [hqc, h]
          exact fun hh => hh.2 hh.1
        rw [if_neg (by simpa using hcond)]
        rw [show (iter_cell hypotQ rand nb_rand P H W areas_arr cell_area p c).2.1 = p.2.1 from
          congrArg (fun q : ℕ × ℕ => q.1) hp2]
      · rcases hv with h1 | h2
        · have hne : p.1.state_arr c.1 c.2 ≠ 1 := by rw [h0]; decide
          have hcnt := hcnt2 hne h1
          have hcond : (l.foldl (iter_cell hypotQ rand nb_rand P H W areas_arr cell_area)
              (iter_cell hypotQ rand nb_rand P H W areas_arr cell_area p c)).1.state_arr c.1 c.2 = 1 ∧
                p.1.state_arr c.1 c.2 ≠ 1 := ⟨hqc.trans h1, hne⟩
          rw [if_pos (decide_eq_true hcond), hcnt.1]
          simp only [List.length_cons]
          omega
        · have hcond : ¬((l.foldl (iter_cell hypotQ rand nb_rand P H W areas_arr cell_area)
              (iter_cell hypotQ rand nb_rand P H W areas_arr cell_area p c)).1.state_arr c.1 c.2 = 1 ∧
                p.1.state_arr c.1 c.2 ≠ 1) := by
            rw [hqc, h2]
            exact fun hh => absurd hh.1 (by decide)
          have hne : p.1.state_arr c.1 c.2 ≠ 2 := by rw [h0]; decide
          rw [if_neg (by simpa using hcond), (hcnt3 hne h2).1]
    · rw [List.filter_cons, ihk, hfilter2]
      rcases iter_cell_self hypotQ rand nb_rand P H W areas_arr cell_area p c hc hinv with h | ⟨h0, hv⟩
      · have hp2 := hcnt1 h
        have hcond : ¬((l.foldl (iter_cell hypotQ rand nb_rand P H W areas_arr cell_area)
            (iter_cell hypotQ rand nb_rand P H W areas_arr cell_area p c)).1.state_arr c.1 c.2 = 2 ∧
              p.1.state_arr c.1 c.2 ≠ 2) := by
          rw [hqc, h]
          exact fun hh => hh.2 hh.1
        rw [if_neg (by simpa using hcond)]
        rw [show (iter_cell hypotQ rand nb_rand P H W areas_arr cell_area p c).2.2 = p.2.2 from
          congrArg (fun q : ℕ × ℕ => q.2) hp2]
      · rcases hv with h1 | h2
        · have hcond : ¬((l.foldl (iter_cell hypotQ rand nb_rand P H W areas_arr cell_area)
              (iter_cell hypotQ rand nb_rand P H W areas_arr cell_area p c)).1.state_arr c.1 c.2 = 2 ∧
                p.1.state_arr c.1 c.2 ≠ 2) := by
            rw [hqc, h1]
            exact fun hh => absurd hh.1 (by decide)
          have hne : p.1.state_arr c.1 c.2 ≠ 1 := by rw [h0]; decide
          rw [if_neg (by simpa using hcond), (hcnt2 hne h1).2]
        · have hne : p.1.state_arr c.1 c.2 ≠ 2 := by rw [h0]; decide
          have hcnt := hcnt3 hne h2
          have hcond : (l.foldl (iter_cell hypotQ rand nb_rand P H W areas_arr cell_area)
              (iter_cell hypotQ rand nb_rand P H W areas_arr cell_area p c)).1.state_arr c.1 c.2 = 2 ∧
                p.1.state_arr c.1 c.2 ≠ 2 := ⟨hqc.trans h2, hne⟩
          rw [if_pos (decide_eq_true hcond), hcnt.2]
          simp only [List.length_cons]
          omega

lemma iter_land_step_key (hypotQ : ℕ → ℕ → ℚ) (rand nb_rand : ℕ → ℚ) (areasFn : GridZ → GridZ)
    (P : Params) (H W : ℕ) (L : Land)
    (hinv : itx_inv H W L.state_arr L.green_itx_arr) :
    itx_inv H W (iter_land_counts hypotQ rand nb_rand areasFn P H W L).1.state_arr
        (iter_land_counts hypotQ rand nb_rand areasFn P H W L).1.green_itx_arr ∧
      (∀ d ∈ rangeFinset H W,
        (iter_land_counts hypotQ rand nb_rand areasFn P H W L).1.state_arr d.1 d.2 =
            L.state_arr d.1 d.2 ∨
          (L.state_arr d.1 d.2 = 0 ∧
            ((iter_land_counts hypotQ rand nb_rand areasFn P H W L).1.state_arr d.1 d.2 = 1 ∨
              (iter_land_counts hypotQ rand nb_rand areasFn P H W L).1.state_arr d.1 d.2 = 2))) ∧
      (iter_land_counts hypotQ rand nb_rand areasFn P H W L).2.1 =
        ((rangeList H W).filter (fun e => decide
          ((iter_land_counts hypotQ rand nb_rand areasFn P H W L).1.state_arr e.1 e.2 = 1 ∧
            L.state_arr e.1 e.2 ≠ 1))).length ∧
      (iter_land_counts hypotQ rand nb_rand areasFn P H W L).2.2 =
        ((rangeList H W).filter (fun e => decide
          ((iter_land_counts hypotQ rand nb_rand areasFn P H W L).1.state_arr e.1 e.2 = 2 ∧
            L.state_arr e.1 e.2 ≠ 2))).length := by
  obtain ⟨kinv, _, kcases, kb, kk⟩ :=
    iter_fold_key hypotQ rand nb_rand P H W (areasFn L.state_arr)
      (Int.floor (((P.granularity_m : ℚ) / 1000) ^ 2)) (rangeList H W)
      ({ L with iters := L.iters + 1 }, 0, 0) (rangeList_nodup H W)
      (fun c hc => List.mem_toFinset.mpr hc) hinv
  exact ⟨kinv, kcases, by rw [iter_land_counts]; rw [kb]; simp,
    by rw [iter_land_counts]; rw [kk]; simp⟩

/-- C3 (amended): one Growth Step computes `added_blocks` = the number of
cells that became Built during the call and `added_centrality` = the number
that became Centre (the counts the source logs), but the method has no
`return` statement, so its Python return value is `None`, not the pair.
(The hypothesis — every active frontier cell is Nature — is established at
construction and preserved by every step.) -/
theorem iter_land_returns_counts (hypotQ : ℕ → ℕ → ℚ) (rand nb_rand : ℕ → ℚ)
    (areasFn : GridZ → GridZ) (P : Params) (H W : ℕ) (L : Land)
    (hinv : itx_inv H W L.state_arr L.green_itx_arr) :
    (iter_land_isobenefit hypotQ rand nb_rand areasFn P H W L).2 = none ∧
      (iter_land_counts hypotQ rand nb_rand areasFn P H W L).2.1 =
        ((rangeList H W).filter (fun e => decide
          ((iter_land_counts hypotQ rand nb_rand areasFn P H W L).1.state_arr e.1 e.2 = 1 ∧
            L.state_arr e.1 e.2 ≠ 1))).length ∧
      (iter_land_counts hypotQ rand nb_rand areasFn P H W L).2.2 =
        ((rangeList H W).filter (fun e => decide
          ((iter_land_counts hypotQ rand nb_rand areasFn P H W L).1.state_arr e.1 e.2 = 2 ∧
            L.state_arr e.1 e.2 ≠ 2))).length := by
  obtain ⟨_, _, kb, kk⟩ := iter_land_step_key hypotQ rand nb_rand areasFn P H W L hinv
  exact ⟨rfl, kb, kk⟩

/-- A concrete engine state used to instantiate step-level theorems: a 1×1
all-Nature grid with empty surfaces. -/
def cexLand : Land :=
  { state_arr := natureState
    green_itx_arr := natureState
    green_acc_arr := fun _ _ => 0
    cent_acc_arr := fun _ _ => 0
    density_arr := fun _ _ => 0
    rng := 0
    rng_nb := 0
    iters := 0 }

/-- Witness for C3: the theorem instantiated at a concrete engine state. -/
theorem iter_land_returns_counts_witness :
    itx_inv 1 1 cexLand.state_arr cexLand.green_itx_arr ∧
      (iter_land_isobenefit hypotRow (fun _ => 0) (fun _ => 0) (fun _ => natureState) zeroWalkParams 1 1
        cexLand).2 = none :=
  ⟨by decide,
    (iter_land_returns_counts hypotRow (fun _ => 0) (fun _ => 0) (fun _ => natureState) zeroWalkParams 1 1
      cexLand (by decide)).1⟩

/-- Counterexample to C3 as stated: at a concrete invocation the Growth Step
returns `None` (the Python method logs the two counters but has no `return`
statement), not the pair `(added_blocks, added_centrality)`. -/
theorem iter_land_returns_none :
    (iter_land_isobenefit hypotRow (fun _ => 0) (fun _ => 0) (fun _ => natureState) zeroWalkParams 1 1
      cexLand).2 = none := rfl

/-- One Growth Step as a state transformer (the engine object mutated by
`iter_land_isobenefit`). -/
def grow_step (hypotQ : ℕ → ℕ → ℚ) (rand nb_rand : ℕ → ℚ) (areasFn : GridZ → GridZ)
    (P : Params) (H W : ℕ) (L : Land) : Land :=
  (iter_land_isobenefit hypotQ rand nb_rand areasFn P H W L).1

/-- C10: along every trajectory from a state whose active frontier cells are
all Nature (as construction guarantees), each Growth Step changes an
in-range cell's class only from Nature to Built or from Nature to Centre;
in particular a cell that is Built, Centre, or OutOfBounds at the start of a
step keeps its class, and no cell ever leaves Built or Centre over any
number of steps. -/
theorem growth_transitions_monotone (hypotQ : ℕ → ℕ → ℚ) (rand nb_rand : ℕ → ℚ)
    (areasFn : GridZ → GridZ) (P : Params) (H W : ℕ) (L : Land)
    (hinv : itx_inv H W L.state_arr L.green_itx_arr) :
    ∀ n : ℕ,
      itx_inv H W ((grow_step hypotQ rand nb_rand areasFn P H W)^[n] L).state_arr
          ((grow_step hypotQ rand nb_rand areasFn P H W)^[n] L).green_itx_arr ∧
        ∀ d ∈ rangeFinset H W,
          (((grow_step hypotQ rand nb_rand areasFn P H W)^[n + 1] L).state_arr d.1 d.2 =
              ((grow_step hypotQ rand nb_rand areasFn P H W)^[n] L).state_arr d.1 d.2 ∨
            (((grow_step hypotQ rand nb_rand areasFn P H W)^[n] L).state_arr d.1 d.2 = 0 ∧
              (((grow_step hypotQ rand nb_rand areasFn P H W)^[n + 1] L).state_arr d.1 d.2 = 1 ∨
                ((grow_step hypotQ rand nb_rand areasFn P H W)^[n + 1] L).state_arr d.1 d.2 = 2))) ∧
          (((grow_step hypotQ rand nb_rand areasFn P H W)^[n] L).state_arr d.1 d.2 ≠ 0 →
            ((grow_step hypotQ rand nb_rand areasFn P H W)^[n + 1] L).state_arr d.1 d.2 =
              ((grow_step hypotQ rand nb_rand areasFn P H W)^[n] L).state_arr d.1 d.2) := by
  intro n
  induction n with
  | zero =>
    obtain ⟨kinv, kcases, _, _⟩ :=
      iter_land_step_key hypotQ rand nb_rand areasFn P H W L hinv
    refine ⟨hinv, ?_⟩
    intro d hd
    have hstep : (grow_step hypotQ rand nb_rand areasFn P H W)^[0 + 1] L =
        (iter_land_counts hypotQ rand nb_rand areasFn P H W
          ((grow_step hypotQ rand nb_rand areasFn P H W)^[0] L)).1 := by
      rw [Function.iterate_one, Function.iterate_zero_apply]
      rfl
    rw [hstep, Function.iterate_zero_apply]
    exact ⟨kcases d hd, fun hne => by
      rcases kcases d hd with h | ⟨h0, _⟩
      · exact h
      · exact absurd h0 hne⟩
  | succ n ihn =>
    obtain ⟨ihinv, _⟩ := ihn
    obtain ⟨kinv, kcases, _, _⟩ :=
      iter_land_step_key hypotQ rand nb_rand areasFn P H W
        ((grow_step hypotQ rand nb_rand areasFn P H W)^[n] L) ihinv
    have hstep : ∀ m : ℕ, (grow_step hypotQ rand nb_rand areasFn P H W)^[m + 1] L =
        (iter_land_counts hypotQ rand nb_rand areasFn P H W
          ((grow_step hypotQ rand nb_rand areasFn P H W)^[m] L)).1 := by
      intro m
      rw [Function.iterate_succ_apply']
      rfl
    refine ⟨?_, ?_⟩
    · rw [hstep n]
      exact kinv
    · intro d hd
      rw [hstep (n + 1), hstep n]
      obtain ⟨kinv', kcases', _, _⟩ :=
        iter_land_step_key hypotQ rand nb_rand areasFn P H W
          (iter_land_counts hypotQ rand nb_rand areasFn P H W
            ((grow_step hypotQ rand nb_rand areasFn P H W)^[n] L)).1 (hstep n ▸ kinv)
      exact ⟨kcases' d hd, fun hne => by
        rcases kcases' d hd with h | ⟨h0, _⟩
        · exact h
        · exact absurd h0 hne⟩

/-- Witness for C10: the theorem instantiated at a concrete engine state,
with the frontier invariant discharged. -/
theorem growth_transitions_monotone_witness :
    itx_inv 1 1 cexLand.state_arr cexLand.green_itx_arr ∧
      itx_inv 1 1
        ((grow_step hypotRow (fun _ => 0) (fun _ => 0) (fun _ => natureState) zeroWalkParams 1 1)^[2]
          cexLand).state_arr
        ((grow_step hypotRow (fun _ => 0) (fun _ => 0) (fun _ => natureState) zeroWalkParams 1 1)^[2]
          cexLand).green_itx_arr :=
  ⟨by decide,
    (growth_transitions_monotone hypotRow (fun _ => 0) (fun _ => 0) (fun _ => natureState) zeroWalkParams 1 1
      cexLand (by decide) 2).1⟩

/-- The seed-determined core of an engine state: every component except the
density array (whose values come from numba's independent generator). -/
def land_core (L : Land) : GridZ × GridZ × GridQ × GridQ × ℕ × ℕ × ℕ :=
  (L.state_arr, L.green_itx_arr, L.green_acc_arr, L.cent_acc_arr, L.rng, L.rng_nb, L.iters)

lemma iter_cell_core (hypotQ : ℕ → ℕ → ℚ) (rand nb1 nb2 : ℕ → ℚ) (P : Params)
    (H W : ℕ) (areas_arr : GridZ) (cell_area : ℤ) (p q : Land × ℕ × ℕ) (c : ℤ × ℤ)
    (hcore : land_core p.1 = land_core q.1) (hcnt : p.2 = q.2) :
    land_core (iter_cell hypotQ rand nb1 P H W areas_arr cell_area p c).1 =
        land_core (iter_cell hypotQ rand nb2 P H W areas_arr cell_area q c).1 ∧
      (iter_cell hypotQ rand nb1 P H W areas_arr cell_area p c).2 =
        (iter_cell hypotQ rand nb2 P H W areas_arr cell_area q c).2 := by
  obtain ⟨pL, pcnt⟩ := p
  obtain ⟨qL, qcnt⟩ := q
  obtain ⟨ps, pi, pga, pca, pd, pr, prn, pit⟩ := pL
  obtain ⟨qs, qi, qga, qca, qd, qr, qrn, qit⟩ := qL
  simp only [land_core, Prod.mk.injEq] at hcore
  obtain ⟨h1, h2, h3, h4, h5, h6, h7⟩ := hcore
  dsimp only at hcnt h1 h2 h3 h4 h5 h6 h7
  subst h1
  subst h2
  subst h3
  subst h4
  subst h5
  subst h6
  subst h7
  subst hcnt
  simp only [iter_cell]
  split_ifs
  all_goals exact ⟨rfl, rfl⟩

lemma iter_fold_core (hypotQ : ℕ → ℕ → ℚ) (rand nb1 nb2 : ℕ → ℚ) (P : Params)
    (H W : ℕ) (areas_arr : GridZ) (cell_area : ℤ) :
    ∀ (l : List (ℤ × ℤ)) (p q : Land × ℕ × ℕ),
      land_core p.1 = land_core q.1 → p.2 = q.2 →
      land_core (l.foldl (iter_cell hypotQ rand nb1 P H W areas_arr cell_area) p).1 =
          land_core (l.foldl (iter_cell hypotQ rand nb2 P H W areas_arr cell_area) q).1 ∧
        (l.foldl (iter_cell hypotQ rand nb1 P H W areas_arr cell_area) p).2 =
          (l.foldl (iter_cell hypotQ rand nb2 P H W areas_arr cell_area) q).2 := by
  intro l
  induction l with
  | nil => intro p q hcore hcnt; exact ⟨hcore, hcnt⟩
  | cons c l ih =>
    intro p q hcore hcnt
    simp only [List.foldl_cons]
    obtain ⟨hcore1, hcnt1⟩ :=
      iter_cell_core hypotQ rand nb1 nb2 P H W areas_arr cell_area p q c hcore hcnt
    exact ih _ _ hcore1 hcnt1

lemma iter_land_core (hypotQ : ℕ → ℕ → ℚ) (rand nb1 nb2 : ℕ → ℚ)
    (areasFn : GridZ → GridZ) (P : Params) (H W : ℕ) (L1 L2 : Land)
    (hcore : land_core L1 = land_core L2) :
    land_core (iter_land_counts hypotQ rand nb1 areasFn P H W L1).1 =
        land_core (iter_land_counts hypotQ rand nb2 areasFn P H W L2).1 ∧
      (iter_land_counts hypotQ rand nb1 areasFn P H W L1).2 =
        (iter_land_counts hypotQ rand nb2 areasFn P H W L2).2 := by
  obtain ⟨ps, pi, pga, pca, pd, pr, prn, pit⟩ := L1
  obtain ⟨qs, qi, qga, qca, qd, qr, qrn, qit⟩ := L2
  simp only [land_core, Prod.mk.injEq] at hcore
  obtain ⟨h1, h2, h3, h4, h5, h6, h7⟩ := hcore
  subst h1
  subst h2
  subst h3
  subst h4
  subst h5
  subst h6
  subst h7
  simp only [iter_land_counts]
  exact iter_fold_core hypotQ rand nb1 nb2 P H W (areasFn ps)
    (Int.floor (((P.granularity_m : ℚ) / 1000) ^ 2)) (rangeList H W) _ _ rfl rfl

/-- C6 (amended): with the same seed, parameters and extents, and the same
number of Growth Steps, two engine instances agree on everything the seeded
numpy stream controls — grid state, frontier array, both accessibility
surfaces, both stream cursors and the iteration counter — for *any* pair of
numba density streams; and the full evolution, density array included, is
deterministic once numba's stream is fixed as well.  (The claim's
bit-identical *density* guarantee is refuted by
`simulate_density_depends_on_numba_stream`: the `@njit` `_random_density`
draws from numba's generator, which `np.random.seed` in `__init__`,
being interpreted code, does not seed.) -/
theorem simulate_deterministic_amended (hypotQ : ℕ → ℕ → ℚ) (rowcol : ℚ × ℚ → ℤ × ℤ)
    (areasFn : GridZ → GridZ) (randFam : ℕ → ℕ → ℚ) (nb1 nb2 : ℕ → ℚ) (P1 P2 : Params)
    (H W : ℕ) (extents_arr : GridZ) (centre_seeds : List (ℚ × ℚ)) (seed1 seed2 : ℕ)
    (n : ℕ) (hP : P1 = P2) (hs : seed1 = seed2) :
    Option.map land_core
        (simulate hypotQ rowcol areasFn randFam nb1 P1 H W extents_arr centre_seeds seed1 n) =
      Option.map land_core
        (simulate hypotQ rowcol areasFn randFam nb2 P2 H W extents_arr centre_seeds seed2 n) ∧
      (nb1 = nb2 →
        simulate hypotQ rowcol areasFn randFam nb1 P1 H W extents_arr centre_seeds seed1 n =
          simulate hypotQ rowcol areasFn randFam nb2 P2 H W extents_arr centre_seeds seed2 n) := by
  subst hP
  subst hs
  refine ⟨?_, fun hnb => by rw [hnb]⟩
  rw [simulate, simulate]
  cases hinit : land_init hypotQ rowcol P1 H W extents_arr centre_seeds with
  | none => rfl
  | some L =>
    simp only [Option.map_some']
    congr 1
    induction n with
    | zero => rfl
    | succ n ihn =>
      rw [Function.iterate_succ_apply', Function.iterate_succ_apply']
      exact (iter_land_core hypotQ (randFam seed1) nb1 nb2 areasFn P1 H W _ _ ihn).1

/-- Witness for C6: concrete identical configurations with two distinct
numba streams; the theorem yields agreement of the seed-determined cores. -/
theorem simulate_deterministic_amended_witness :
    zeroWalkParams = zeroWalkParams ∧ (0 : ℕ) = 0 ∧
      Option.map land_core
          (simulate hypotRow (fun _ => (0, 0)) (fun _ => natureState) (fun _ _ => 0)
            (fun _ => 0) zeroWalkParams 2 2 natureState [] 0 3) =
        Option.map land_core
          (simulate hypotRow (fun _ => (0, 0)) (fun _ => natureState) (fun _ _ => 0)
            (fun _ => 4 / 5) zeroWalkParams 2 2 natureState [] 0 3) :=
  ⟨rfl, rfl,
    (simulate_deterministic_amended hypotRow (fun _ => (0, 0)) (fun _ => natureState)
      (fun _ _ => 0) (fun _ => 0) (fun _ => 4 / 5) zeroWalkParams zeroWalkParams 2 2
      natureState [] 0 0 3 rfl rfl).1⟩

/-- Parameter set for the C6 counterexample: isolated-centrality conversion
fires with probability 1, the span minima are zero (so the span check
passes on a 1×1 grid), and `min_green_km2 = 0` (so construction succeeds). -/
def nbParams : Params :=
  { granularity_m := 100
    walk_dist_m := 200
    build_prob := 1 / 10
    cent_prob_nb := 1 / 20
    cent_prob_isol := 1
    max_local_pop := 10000
    prob_distribution := (7 / 10, 3 / 10, 0)
    density_factors := (1, 1 / 10, 1 / 100)
    min_green_km2 := 0
    min_long_green_span_m := 0
    min_short_green_span_m := 0 }

/-- Counterexample to C6 as stated: two engine instances with the same
seed, parameters and extents, driven through one Growth Step, do not
produce bit-identical density arrays.  The only difference between the two
runs is the state of numba's internal generator (here the constant streams
0 and 4/5), which `np.random.seed(random_seed)` in `__init__` — an
interpreted call — does not control: on a 1×1 all-Nature grid the
isolated-centrality branch fires and `_random_density` returns the first
density factor (1) for the draw 0 but the third (1/100) for the draw 4/5. -/
theorem simulate_density_depends_on_numba_stream :
    Option.map (fun L => L.density_arr 0 0)
        (simulate hypotRow (fun _ => (0, 0)) (fun _ => natureState) (fun _ _ => 0)
          (fun _ => 0) nbParams 1 1 natureState [] 0 1) = some 1 ∧
      Option.map (fun L => L.density_arr 0 0)
        (simulate hypotRow (fun _ => (0, 0)) (fun _ => natureState) (fun _ _ => 0)
          (fun _ => 4 / 5) nbParams 1 1 natureState [] 0 1) = some (1 / 100) := by
  constructor
  all_goals
    rw [simulate, land_init, if_neg (by norm_num [nbParams])]
    rw [Option.map_some']
    norm_num [Function.iterate_one, iter_land_isobenefit, iter_land_counts,
      show rangeList 1 1 = [(0, 0)] from by decide,
      show iter_nbs 1 1 0 0 true = ([] : List (ℤ × ℤ)) from by decide,
      iter_cell, green_state, green_state_work, strands, compute_green_itx,
      compute_centres_access, random_density, inc_access, decr_access, agg_access,
      upd, natureState, nbParams, hypotRow]

end Isobenefit
